import Mathlib

/-!
# Release-service object loader

A shallow embedding of `loader/loader.go`: the resolvers that walk the
references between Release, ReleasePlan, ReleasePlanAdmission and the
resources a SnapshotEnvironmentBinding is built from.

Conventions of the embedding

* A Go pointer result is an `Option` (`nil` is `none`); an `error` result is
  an `Option GoError` (`nil` is `none`).
* The object store behind `client.Client` is read only by this package. It is
  a record of response functions, one per kind and verb; every loader
  function also reports, in order, the store calls it issued.
* Kubernetes objects carry the metadata and spec fields the loader reads.
-/

namespace Loader

/-! ## Errors -/

/-- Go `error` values seen by the loader: the ones it builds itself with
`fmt.Errorf`, and the ones the store client hands back. -/
inductive GoError where
  | Errorf (msg : String)
  | Status (reason : String) (msg : String)
  deriving DecidableEq, Repr

/-- The `Error()` method: the message of an error. -/
def GoError.Error : GoError → String
  | .Errorf msg => msg
  | .Status _ msg => msg

/-- Substring test in the sense of `strings.Contains` and of the test
matcher `ContainSubstring`. -/
def Contains (s sub : String) : Prop :=
  ∃ before after : String, s = before ++ sub ++ after

/-! ## Objects -/

/-- The part of `metav1.ObjectMeta` the loader reads. A Go map of labels is
an association list; a nil map is the empty list. -/
structure ObjectMeta where
  Name : String := ""
  Namespace : String := ""
  Labels : List (String × String) := []
  deriving DecidableEq, Repr

/-- Two-valued map index `m[k]` of Go: the value and whether the key is
present; the zero value `""` when it is not. -/
def mapIndex (m : List (String × String)) (k : String) : String × Bool :=
  match m.lookup k with
  | some v => (v, true)
  | none => ("", false)

structure ReleasePlanSpec where
  Application : String := ""
  Target : String := ""
  deriving DecidableEq, Repr

structure ReleasePlan extends ObjectMeta where
  Spec : ReleasePlanSpec := {}
  deriving DecidableEq, Repr

structure ReleasePlanAdmissionSpec where
  Application : String := ""
  Origin : String := ""
  Environment : String := ""
  ReleaseStrategy : String := ""
  deriving DecidableEq, Repr

structure ReleasePlanAdmission extends ObjectMeta where
  Spec : ReleasePlanAdmissionSpec := {}
  deriving DecidableEq, Repr

structure ReleaseSpec where
  Snapshot : String := ""
  ReleasePlan : String := ""
  deriving DecidableEq, Repr

structure ReleaseStatus where
  SnapshotEnvironmentBinding : String := ""
  deriving DecidableEq, Repr

structure Release extends ObjectMeta where
  Spec : ReleaseSpec := {}
  Status : ReleaseStatus := {}
  deriving DecidableEq, Repr

structure ReleaseStrategySpec where
  Pipeline : String := ""
  Policy : String := ""
  deriving DecidableEq, Repr

structure ReleaseStrategy extends ObjectMeta where
  Spec : ReleaseStrategySpec := {}
  deriving DecidableEq, Repr

structure Application extends ObjectMeta where
  deriving DecidableEq, Repr

structure ComponentSpec where
  Application : String := ""
  deriving DecidableEq, Repr

structure Component extends ObjectMeta where
  Spec : ComponentSpec := {}
  deriving DecidableEq, Repr

structure Environment extends ObjectMeta where
  deriving DecidableEq, Repr

structure SnapshotSpec where
  Application : String := ""
  deriving DecidableEq, Repr

structure Snapshot extends ObjectMeta where
  Spec : SnapshotSpec := {}
  deriving DecidableEq, Repr

structure SnapshotEnvironmentBindingSpec where
  Application : String := ""
  Environment : String := ""
  Snapshot : String := ""
  deriving DecidableEq, Repr

structure SnapshotEnvironmentBinding extends ObjectMeta where
  Spec : SnapshotEnvironmentBindingSpec := {}
  deriving DecidableEq, Repr

structure EnterpriseContractPolicy extends ObjectMeta where
  deriving DecidableEq, Repr

structure PipelineRun extends ObjectMeta where
  deriving DecidableEq, Repr

/-! ## The store client -/

/-- The key of a `Get`: `types.NamespacedName`. -/
structure NamespacedName where
  Namespace : String := ""
  Name : String := ""
  deriving DecidableEq, Repr

/-- The options of a `List`: `client.InNamespace`, `client.MatchingFields`,
`client.MatchingLabels` and `client.Limit` (0 when not given). -/
structure ListOptions where
  Namespace : String := ""
  MatchingFields : List (String × String) := []
  MatchingLabels : List (String × String) := []
  Limit : Nat := 0
  deriving DecidableEq, Repr

/-- The kinds of object the loader asks the store for. -/
inductive Kind where
  | Application
  | Component
  | EnterpriseContractPolicy
  | Environment
  | PipelineRun
  | Release
  | ReleasePlan
  | ReleasePlanAdmission
  | ReleaseStrategy
  | Snapshot
  | SnapshotEnvironmentBinding
  deriving DecidableEq, Repr

/-- One call issued to the store. -/
inductive StoreCall where
  | Get (kind : Kind) (key : NamespacedName)
  | List (kind : Kind) (opts : ListOptions)
  deriving DecidableEq, Repr

/-- The answers of `client.Client`, by kind and verb. -/
structure Client where
  GetApplication : NamespacedName → Except GoError Application
  GetEnterpriseContractPolicy : NamespacedName → Except GoError EnterpriseContractPolicy
  GetEnvironment : NamespacedName → Except GoError Environment
  GetRelease : NamespacedName → Except GoError Release
  GetReleasePlan : NamespacedName → Except GoError ReleasePlan
  GetReleaseStrategy : NamespacedName → Except GoError ReleaseStrategy
  GetSnapshot : NamespacedName → Except GoError Snapshot
  GetSnapshotEnvironmentBinding : NamespacedName → Except GoError SnapshotEnvironmentBinding
  ListComponents : ListOptions → Except GoError (List Component)
  ListPipelineRuns : ListOptions → Except GoError (List PipelineRun)
  ListReleasePlanAdmissions : ListOptions → Except GoError (List ReleasePlanAdmission)
  ListSnapshotEnvironmentBindings : ListOptions → Except GoError (List SnapshotEnvironmentBinding)

/-- What a loader function hands back: the Go result value, the error, and
the store calls issued, first call first. -/
structure Ret (α : Type) where
  val : α
  err : Option GoError
  calls : List StoreCall

/-! ## GetActiveReleasePlanAdmission -/

/-- The `for ... range releasePlanAdmissions.Items` loop of
`GetActiveReleasePlanAdmission`, with `active` the loop-carried
`activeReleasePlanAdmission`. `.error e` is an early `return nil, e`;
`.ok active` is the variable when the loop runs to its end. -/
def scanReleasePlanAdmissions (AutoReleaseLabel : String) (releasePlan : ReleasePlan) :
    List ReleasePlanAdmission → Option ReleasePlanAdmission →
      Except GoError (Option ReleasePlanAdmission)
  | [], active => .ok active
  | releasePlanAdmission :: rest, active =>
    if releasePlanAdmission.Spec.Application != releasePlan.Spec.Application then
      scanReleasePlanAdmissions AutoReleaseLabel releasePlan rest active
    else if active.isSome then
      .error (.Errorf ("multiple ReleasePlanAdmissions found with the target (" ++
        releasePlan.Spec.Target ++ ") for application \x27" ++
        releasePlan.Spec.Application ++ "\x27"))
    else
      let (labelValue, found) := mapIndex releasePlanAdmission.Labels AutoReleaseLabel
      if found && labelValue == "false" then
        .error (.Errorf ("found ReleasePlanAdmission \x27" ++ releasePlanAdmission.Name ++
          "\x27 with auto-release label set to false"))
      else
        scanReleasePlanAdmissions AutoReleaseLabel releasePlan rest (some releasePlanAdmission)

/-- The options `GetActiveReleasePlanAdmission` lists admissions with:
`client.InNamespace(releasePlan.Spec.Target)` and
`client.MatchingFields{"spec.origin": releasePlan.Namespace}`. -/
def admissionListOptions (releasePlan : ReleasePlan) : ListOptions :=
  { Namespace := releasePlan.Spec.Target,
    MatchingFields := [("spec.origin", releasePlan.Namespace)] }

/-- `GetActiveReleasePlanAdmission` of loader.go. `AutoReleaseLabel` is the
label key `v1alpha1.AutoReleaseLabel`, a constant declared outside this
package. -/
def GetActiveReleasePlanAdmission (AutoReleaseLabel : String) (cli : Client)
    (releasePlan : ReleasePlan) : Ret (Option ReleasePlanAdmission) :=
  let call := StoreCall.List Kind.ReleasePlanAdmission (admissionListOptions releasePlan)
  match cli.ListReleasePlanAdmissions (admissionListOptions releasePlan) with
  | .error err => ⟨none, some err, [call]⟩
  | .ok items =>
    match scanReleasePlanAdmissions AutoReleaseLabel releasePlan items none with
    | .error err => ⟨none, some err, [call]⟩
    | .ok none =>
      ⟨none, some (.Errorf ("no ReleasePlanAdmission found in the target (" ++
        releasePlan.Spec.Target ++ ") for application \x27" ++
        releasePlan.Spec.Application ++ "\x27")), [call]⟩
    | .ok (some activeReleasePlanAdmission) => ⟨some activeReleasePlanAdmission, none, [call]⟩

/-! ## Single-object lookups -/

/-- Kinds of object `cli.Get` can fill in: the kind tag and the store answer
for a key. -/
class StoreObject (α : Type) where
  kind : Kind
  get : Client → NamespacedName → Except GoError α

instance : StoreObject Application := ⟨Kind.Application, Client.GetApplication⟩
instance : StoreObject EnterpriseContractPolicy :=
  ⟨Kind.EnterpriseContractPolicy, Client.GetEnterpriseContractPolicy⟩
instance : StoreObject Environment := ⟨Kind.Environment, Client.GetEnvironment⟩
instance : StoreObject Release := ⟨Kind.Release, Client.GetRelease⟩
instance : StoreObject ReleasePlan := ⟨Kind.ReleasePlan, Client.GetReleasePlan⟩
instance : StoreObject ReleaseStrategy := ⟨Kind.ReleaseStrategy, Client.GetReleaseStrategy⟩
instance : StoreObject Snapshot := ⟨Kind.Snapshot, Client.GetSnapshot⟩
instance : StoreObject SnapshotEnvironmentBinding :=
  ⟨Kind.SnapshotEnvironmentBinding, Client.GetSnapshotEnvironmentBinding⟩

/-- The call `cli.Get(ctx, key, object)`: on success `object` is overwritten
with the stored object, on failure it is left as it was. `val` is the object
after the call. -/
def clientGet {α : Type} [StoreObject α] (cli : Client) (key : NamespacedName) (object : α) :
    Ret α :=
  match StoreObject.get cli key with
  | .ok stored => ⟨stored, none, [StoreCall.Get (StoreObject.kind α) key]⟩
  | .error err => ⟨object, some err, [StoreCall.Get (StoreObject.kind α) key]⟩

/-- `getObject` of loader.go: one `cli.Get` with the key built from `name`
and `namespace`. -/
def getObject {α : Type} [StoreObject α] (name namespace_ : String) (cli : Client)
    (object : α) : Ret α :=
  clientGet cli { Name := name, Namespace := namespace_ } object

/-! The resolvers below end in `return object, getObject(...)`: the pointer
they hand back is never nil, also when the lookup failed, so `val` is the
object itself (the zero object when the lookup failed). -/

/-- `GetApplication` of loader.go. -/
def GetApplication (cli : Client) (releasePlanAdmission : ReleasePlanAdmission) :
    Ret Application :=
  getObject releasePlanAdmission.Spec.Application
    releasePlanAdmission.Namespace cli ({} : Application)

/-- `GetEnterpriseContractPolicy` of loader.go. -/
def GetEnterpriseContractPolicy (cli : Client) (releaseStrategy : ReleaseStrategy) :
    Ret EnterpriseContractPolicy :=
  getObject releaseStrategy.Spec.Policy releaseStrategy.Namespace cli
    ({} : EnterpriseContractPolicy)

/-- `GetEnvironment` of loader.go. -/
def GetEnvironment (cli : Client) (releasePlanAdmission : ReleasePlanAdmission) :
    Ret Environment :=
  getObject releasePlanAdmission.Spec.Environment
    releasePlanAdmission.Namespace cli ({} : Environment)

/-- `GetRelease` of loader.go. -/
def GetRelease (cli : Client) (name namespace_ : String) : Ret Release :=
  getObject name namespace_ cli ({} : Release)

/-- `GetReleasePlan` of loader.go. -/
def GetReleasePlan (cli : Client) (release : Release) : Ret ReleasePlan :=
  getObject release.Spec.ReleasePlan release.Namespace cli ({} : ReleasePlan)

/-- `GetReleaseStrategy` of loader.go. -/
def GetReleaseStrategy (cli : Client) (releasePlanAdmission : ReleasePlanAdmission) :
    Ret ReleaseStrategy :=
  getObject releasePlanAdmission.Spec.ReleaseStrategy
    releasePlanAdmission.Namespace cli ({} : ReleaseStrategy)

/-- `GetSnapshot` of loader.go. -/
def GetSnapshot (cli : Client) (release : Release) : Ret Snapshot :=
  getObject release.Spec.Snapshot release.Namespace cli ({} : Snapshot)

/-! ## The binding reference stored in a Release status -/

/-- `types.Separator` of k8s.io/apimachinery: the character between the
namespace and the name of a namespaced name. -/
def Separator : Char := '/'

/-- Segments of a character list around every occurrence of `sep`; there is
always one segment more than there are separators. -/
def splitChars (sep : Char) : List Char → List (List Char)
  | [] => [[]]
  | c :: cs =>
    if c = sep then [] :: splitChars sep cs
    else
      match splitChars sep cs with
      | [] => [[c]]
      | seg :: segs => (c :: seg) :: segs

/-- `strings.Split(s, string(sep))` for a one-character separator. -/
def stringsSplit (s : String) (sep : Char) : List String :=
  (splitChars sep s.data).map String.mk

/-- `GetSnapshotEnvironmentBindingFromReleaseStatus` of loader.go. -/
def GetSnapshotEnvironmentBindingFromReleaseStatus (cli : Client) (release : Release) :
    Ret (Option SnapshotEnvironmentBinding) :=
  let binding : SnapshotEnvironmentBinding := {}
  let bindingNamespacedName := stringsSplit release.Status.SnapshotEnvironmentBinding Separator
  if bindingNamespacedName.length != 2 then
    ⟨none, some (.Errorf
      ("release doesn\x27t contain a valid reference to an SnapshotEnvironmentBinding (\x27" ++
        release.Status.SnapshotEnvironmentBinding ++ "\x27)")), []⟩
  else
    let r := clientGet cli
      { Namespace := bindingNamespacedName.getD 0 "", Name := bindingNamespacedName.getD 1 "" }
      binding
    match r.err with
    | some err => ⟨none, some err, r.calls⟩
    | none => ⟨some r.val, none, r.calls⟩

/-! ## List-based resolvers and composites -/

/-- `GetActiveReleasePlanAdmissionFromRelease` of loader.go. -/
def GetActiveReleasePlanAdmissionFromRelease (AutoReleaseLabel : String) (cli : Client)
    (release : Release) : Ret (Option ReleasePlanAdmission) :=
  let r := GetReleasePlan cli release
  match r.err with
  | some err => ⟨none, some err, r.calls⟩
  | none =>
    let a := GetActiveReleasePlanAdmission AutoReleaseLabel cli r.val
    ⟨a.val, a.err, r.calls ++ a.calls⟩

/-- `GetApplicationComponents` of loader.go; a nil slice is the empty list. -/
def GetApplicationComponents (cli : Client) (application : Application) :
    Ret (List Component) :=
  let opts : ListOptions :=
    { Namespace := application.Namespace,
      MatchingFields := [("spec.application", application.Name)] }
  match cli.ListComponents opts with
  | .error err => ⟨[], some err, [StoreCall.List Kind.Component opts]⟩
  | .ok items => ⟨items, none, [StoreCall.List Kind.Component opts]⟩

/-- `GetReleasePipelineRun` of loader.go. `ReleaseNameLabel` and
`ReleaseNamespaceLabel` are the label keys of package tekton, declared
outside this package. -/
def GetReleasePipelineRun (ReleaseNameLabel ReleaseNamespaceLabel : String) (cli : Client)
    (release : Release) : Ret (Option PipelineRun) :=
  let opts : ListOptions :=
    { Limit := 1,
      MatchingLabels :=
        [(ReleaseNameLabel, release.Name), (ReleaseNamespaceLabel, release.Namespace)] }
  match cli.ListPipelineRuns opts with
  | .ok (first :: _) => ⟨some first, none, [StoreCall.List Kind.PipelineRun opts]⟩
  | .ok [] => ⟨none, none, [StoreCall.List Kind.PipelineRun opts]⟩
  | .error err => ⟨none, some err, [StoreCall.List Kind.PipelineRun opts]⟩

/-- The `for ... range bindingList.Items` loop of
`GetSnapshotEnvironmentBinding`: the first binding of the Application of the
admission, if there is one. -/
def scanBindings (releasePlanAdmission : ReleasePlanAdmission) :
    List SnapshotEnvironmentBinding → Option SnapshotEnvironmentBinding
  | [] => none
  | binding :: rest =>
    if binding.Spec.Application == releasePlanAdmission.Spec.Application then some binding
    else scanBindings releasePlanAdmission rest

/-- `GetSnapshotEnvironmentBinding` of loader.go. -/
def GetSnapshotEnvironmentBinding (cli : Client) (releasePlanAdmission : ReleasePlanAdmission) :
    Ret (Option SnapshotEnvironmentBinding) :=
  let opts : ListOptions :=
    { Namespace := releasePlanAdmission.Namespace,
      MatchingFields := [("spec.environment", releasePlanAdmission.Spec.Environment)] }
  match cli.ListSnapshotEnvironmentBindings opts with
  | .error err => ⟨none, some err, [StoreCall.List Kind.SnapshotEnvironmentBinding opts]⟩
  | .ok items =>
    ⟨scanBindings releasePlanAdmission items, none,
      [StoreCall.List Kind.SnapshotEnvironmentBinding opts]⟩

/-- `SnapshotEnvironmentBindingResources` of loader.go; a nil pointer field is
`none`, the nil slice is the empty list. -/
structure SnapshotEnvironmentBindingResources where
  Application : Option Application := none
  ApplicationComponents : List Component := []
  Environment : Option Environment := none
  Snapshot : Option Snapshot := none
  deriving DecidableEq, Repr

/-- `GetSnapshotEnvironmentBindingResources` of loader.go. Every return hands
back the pointer `resources` made on entry, so `val` is `some` bundle on
every path. -/
def GetSnapshotEnvironmentBindingResources (cli : Client) (release : Release)
    (releasePlanAdmission : ReleasePlanAdmission) :
    Ret (Option SnapshotEnvironmentBindingResources) :=
  let resources : SnapshotEnvironmentBindingResources := {}
  let r1 := GetApplication cli releasePlanAdmission
  match r1.err with
  | some err => ⟨some resources, some err, r1.calls⟩
  | none =>
    let resources := { resources with Application := some r1.val }
    let r2 := GetApplicationComponents cli r1.val
    match r2.err with
    | some err => ⟨some resources, some err, r1.calls ++ r2.calls⟩
    | none =>
      let resources := { resources with ApplicationComponents := r2.val }
      let r3 := GetEnvironment cli releasePlanAdmission
      match r3.err with
      | some err => ⟨some resources, some err, r1.calls ++ r2.calls ++ r3.calls⟩
      | none =>
        let resources := { resources with Environment := some r3.val }
        let r4 := GetSnapshot cli release
        match r4.err with
        | some err =>
          ⟨some resources, some err, r1.calls ++ r2.calls ++ r3.calls ++ r4.calls⟩
        | none =>
          ⟨some { resources with Snapshot := some r4.val }, none,
            r1.calls ++ r2.calls ++ r3.calls ++ r4.calls⟩

/-! ## The label validator of the admission webhook -/

/-- The write operations the store submits to the validator. -/
inductive Operation where
  | create
  | update
  | delete
  deriving DecidableEq, Repr

/-- The message a write with an invalid auto-release label is refused with. -/
def invalidLabelMessage (AutoReleaseLabel : String) : String :=
  "\x27" ++ AutoReleaseLabel ++ "\x27 label can only be set to true or false"

/-- Modelled from the spec: the Label Invariant Validator, the validating
webhook of package api/v1alpha1, of which only the test file is present.
Section 4.1: on create or update the write is allowed only if the label key
is absent or its value is exactly "true" or "false"; a violation is rejected
with an error naming the label key (the text the webhook test matches on);
a deletion is never validated. `none` accepts the write. -/
def validateWrite (AutoReleaseLabel : String) (operation : Operation)
    (labels : List (String × String)) : Option GoError :=
  match operation with
  | .delete => none
  | .create | .update =>
    let (labelValue, found) := mapIndex labels AutoReleaseLabel
    if !found then none
    else if labelValue == "true" || labelValue == "false" then none
    else some (.Errorf (invalidLabelMessage AutoReleaseLabel))

/-! ## Error messages and candidate matching -/

/-- The message of the "multiple ReleasePlanAdmissions" error for a plan. -/
def multipleMessage (releasePlan : ReleasePlan) : String :=
  "multiple ReleasePlanAdmissions found with the target (" ++ releasePlan.Spec.Target ++
    ") for application \x27" ++ releasePlan.Spec.Application ++ "\x27"

/-- The message of the "no ReleasePlanAdmission found" error for a plan. -/
def notFoundMessage (releasePlan : ReleasePlan) : String :=
  "no ReleasePlanAdmission found in the target (" ++ releasePlan.Spec.Target ++
    ") for application \x27" ++ releasePlan.Spec.Application ++ "\x27"

/-- The message of the "auto-release label set to false" error for an
admission. -/
def disabledMessage (releasePlanAdmission : ReleasePlanAdmission) : String :=
  "found ReleasePlanAdmission \x27" ++ releasePlanAdmission.Name ++
    "\x27 with auto-release label set to false"

/-- The message of the malformed-reference error for a status string. -/
def malformedMessage (reference : String) : String :=
  "release doesn\x27t contain a valid reference to an SnapshotEnvironmentBinding (\x27" ++
    reference ++ "\x27)"

/-- Whether an admission is a candidate for a plan: its Application is the
Application of the plan (the test the scan makes before anything else). -/
def matchesPlan (releasePlan : ReleasePlan) (a : ReleasePlanAdmission) : Bool :=
  a.Spec.Application == releasePlan.Spec.Application

/-! ## Fixtures for concrete evaluations -/

/-- A store that holds nothing: every `Get` is answered NotFound, every `List`
with the empty list. -/
def emptyStore : Client where
  GetApplication := fun _ => .error (.Status "NotFound" "not found")
  GetEnterpriseContractPolicy := fun _ => .error (.Status "NotFound" "not found")
  GetEnvironment := fun _ => .error (.Status "NotFound" "not found")
  GetRelease := fun _ => .error (.Status "NotFound" "not found")
  GetReleasePlan := fun _ => .error (.Status "NotFound" "not found")
  GetReleaseStrategy := fun _ => .error (.Status "NotFound" "not found")
  GetSnapshot := fun _ => .error (.Status "NotFound" "not found")
  GetSnapshotEnvironmentBinding := fun _ => .error (.Status "NotFound" "not found")
  ListComponents := fun _ => .ok []
  ListPipelineRuns := fun _ => .ok []
  ListReleasePlanAdmissions := fun _ => .ok []
  ListSnapshotEnvironmentBindings := fun _ => .ok []

/-- The empty store with `items` as the answer to every list of
ReleasePlanAdmissions. -/
def storeWithAdmissions (items : List ReleasePlanAdmission) : Client :=
  { emptyStore with ListReleasePlanAdmissions := fun _ => .ok items }

/-- The empty store with one SnapshotEnvironmentBinding `binding` stored under
`key`. -/
def storeWithBinding (key : NamespacedName) (binding : SnapshotEnvironmentBinding) : Client :=
  { emptyStore with
    GetSnapshotEnvironmentBinding := fun k =>
      if k = key then .ok binding else .error (.Status "NotFound" "not found") }

/-- A Release in namespace "dev" whose status holds `reference`. -/
def releaseWithStatus (reference : String) : Release :=
  { Name := "release", Namespace := "dev", Status := { SnapshotEnvironmentBinding := reference } }

/-- A ReleasePlanAdmission in namespace "prod" with origin "dev". -/
def mkAdmission (name app : String) (labels : List (String × String)) : ReleasePlanAdmission :=
  { Name := name, Namespace := "prod", Labels := labels,
    Spec := { Application := app, Origin := "dev" } }

/-- The ReleasePlan of the examples: application "app1", released from "dev"
to "prod". -/
def planApp1 : ReleasePlan :=
  { Name := "plan", Namespace := "dev", Spec := { Application := "app1", Target := "prod" } }

/-- The key a resolver asks the store for: `name` in `namespace_`. -/
def objectKey (name namespace_ : String) : NamespacedName :=
  { Name := name, Namespace := namespace_ }

/-- The options `GetApplicationComponents` lists components with. -/
def componentListOptions (application : Application) : ListOptions :=
  { Namespace := application.Namespace,
    MatchingFields := [("spec.application", application.Name)] }

/-- The options `GetSnapshotEnvironmentBinding` lists bindings with. -/
def bindingListOptions (releasePlanAdmission : ReleasePlanAdmission) : ListOptions :=
  { Namespace := releasePlanAdmission.Namespace,
    MatchingFields := [("spec.environment", releasePlanAdmission.Spec.Environment)] }

/-- The options `GetReleasePipelineRun` lists pipeline runs with. -/
def pipelineRunListOptions (ReleaseNameLabel ReleaseNamespaceLabel : String)
    (release : Release) : ListOptions :=
  { Limit := 1,
    MatchingLabels :=
      [(ReleaseNameLabel, release.Name), (ReleaseNamespaceLabel, release.Namespace)] }

/-- The objects of the loader test suite, all in namespace "default". -/
def suiteApplication : Application := { Name := "application", Namespace := "default" }

def suiteComponent : Component :=
  { Name := "component", Namespace := "default", Spec := { Application := "application" } }

def suiteEnvironment : Environment := { Name := "environment", Namespace := "default" }

def suiteSnapshot : Snapshot :=
  { Name := "snapshot", Namespace := "default", Spec := { Application := "application" } }

def suiteReleasePlan : ReleasePlan :=
  { Name := "release-plan", Namespace := "default",
    Spec := { Application := "application", Target := "default" } }

def suiteReleasePlanAdmission : ReleasePlanAdmission :=
  { Name := "release-plan-admission", Namespace := "default",
    Labels := [("auto-release", "true")],
    Spec :=
      { Application := "application", Origin := "default", Environment := "environment",
        ReleaseStrategy := "release-strategy" } }

def suiteBinding : SnapshotEnvironmentBinding :=
  { Name := "snapshot-environment-binding", Namespace := "default",
    Spec :=
      { Application := "application", Environment := "environment", Snapshot := "snapshot" } }

def suiteRelease : Release :=
  { Name := "release", Namespace := "default",
    Spec := { Snapshot := "snapshot", ReleasePlan := "release-plan" } }

def suitePipelineRun : PipelineRun :=
  { Name := "pipeline-run", Namespace := "default",
    Labels := [("release-name", "release"), ("release-namespace", "default")] }

/-- The answer of a store holding one object `object` under `key`. -/
def getOne {α : Type} (key : NamespacedName) (object : α) (k : NamespacedName) :
    Except GoError α :=
  if k = key then .ok object else .error (.Status "NotFound" "not found")

/-- The answer of a store listing `items` under the options `opts` and nothing
under any other options. -/
def listOne {α : Type} (opts : ListOptions) (items : List α) (o : ListOptions) :
    Except GoError (List α) :=
  if o = opts then .ok items else .ok []

/-- The store of the loader test suite. -/
def suiteStore : Client :=
  { emptyStore with
    GetApplication := getOne (objectKey "application" "default") suiteApplication,
    GetEnvironment := getOne (objectKey "environment" "default") suiteEnvironment,
    GetSnapshot := getOne (objectKey "snapshot" "default") suiteSnapshot,
    GetReleasePlan := getOne (objectKey "release-plan" "default") suiteReleasePlan,
    ListComponents := listOne (componentListOptions suiteApplication) [suiteComponent],
    ListReleasePlanAdmissions :=
      listOne (admissionListOptions suiteReleasePlan) [suiteReleasePlanAdmission],
    ListSnapshotEnvironmentBindings :=
      listOne (bindingListOptions suiteReleasePlanAdmission) [suiteBinding],
    ListPipelineRuns :=
      listOne (pipelineRunListOptions "release-name" "release-namespace" suiteRelease)
        [suitePipelineRun] }

/-- The suite store with the Environment removed. -/
def storeWithoutEnvironment : Client :=
  { suiteStore with GetEnvironment := fun _ => .error (.Status "NotFound" "environment gone") }

/-- A store whose every list call fails. -/
def failingListStore : Client :=
  { emptyStore with
    ListComponents := fun _ => .error (.Status "Timeout" "list timed out"),
    ListPipelineRuns := fun _ => .error (.Status "Timeout" "list timed out"),
    ListReleasePlanAdmissions := fun _ => .error (.Status "Timeout" "list timed out"),
    ListSnapshotEnvironmentBindings := fun _ => .error (.Status "Timeout" "list timed out") }


/-! ## Lemmas on the admission scan -/

theorem scan_nomatch_cons (key : String) (plan : ReleasePlan) (x : ReleasePlanAdmission)
    (rest : List ReleasePlanAdmission) (active : Option ReleasePlanAdmission)
    (hx : x.Spec.Application ≠ plan.Spec.Application) :
    scanReleasePlanAdmissions key plan (x :: rest) active =
      scanReleasePlanAdmissions key plan rest active := by
  simp [scanReleasePlanAdmissions, hx]

theorem scan_skip (key : String) (plan : ReleasePlan) (pre rest : List ReleasePlanAdmission)
    (active : Option ReleasePlanAdmission)
    (hpre : ∀ x ∈ pre, x.Spec.Application ≠ plan.Spec.Application) :
    scanReleasePlanAdmissions key plan (pre ++ rest) active =
      scanReleasePlanAdmissions key plan rest active := by
  induction pre with
  | nil => rfl
  | cons x xs ih =>
    have hx : x.Spec.Application ≠ plan.Spec.Application := hpre x (List.mem_cons_self x xs)
    have hxs : ∀ y ∈ xs, y.Spec.Application ≠ plan.Spec.Application :=
      fun y hy => hpre y (List.mem_cons_of_mem x hy)
    rw [List.cons_append, scan_nomatch_cons key plan x _ active hx]
    exact ih hxs

theorem scan_nomatch (key : String) (plan : ReleasePlan) (items : List ReleasePlanAdmission)
    (active : Option ReleasePlanAdmission)
    (h : ∀ x ∈ items, x.Spec.Application ≠ plan.Spec.Application) :
    scanReleasePlanAdmissions key plan items active = .ok active := by
  have := scan_skip key plan items [] active h
  simpa [scanReleasePlanAdmissions] using this

theorem scan_second_match (key : String) (plan : ReleasePlan) (x b : ReleasePlanAdmission)
    (rest : List ReleasePlanAdmission) (hx : x.Spec.Application = plan.Spec.Application) :
    scanReleasePlanAdmissions key plan (x :: rest) (some b) =
      .error (.Errorf (multipleMessage plan)) := by
  simp [scanReleasePlanAdmissions, hx, multipleMessage]

theorem scan_first_disabled (key : String) (plan : ReleasePlan) (x : ReleasePlanAdmission)
    (rest : List ReleasePlanAdmission) (hx : x.Spec.Application = plan.Spec.Application)
    (hl : x.Labels.lookup key = some "false") :
    scanReleasePlanAdmissions key plan (x :: rest) none =
      .error (.Errorf (disabledMessage x)) := by
  simp [scanReleasePlanAdmissions, hx, mapIndex, hl, disabledMessage]

theorem scan_first_enabled (key : String) (plan : ReleasePlan) (x : ReleasePlanAdmission)
    (rest : List ReleasePlanAdmission) (hx : x.Spec.Application = plan.Spec.Application)
    (hl : x.Labels.lookup key ≠ some "false") :
    scanReleasePlanAdmissions key plan (x :: rest) none =
      scanReleasePlanAdmissions key plan rest (some x) := by
  cases hk : x.Labels.lookup key with
  | none => simp [scanReleasePlanAdmissions, hx, mapIndex, hk]
  | some v =>
    have hv : v ≠ "false" := by
      intro hv
      exact hl (by rw [hk, hv])
    simp [scanReleasePlanAdmissions, hx, mapIndex, hk, hv]


theorem scan_filter (key : String) (plan : ReleasePlan) (items : List ReleasePlanAdmission) :
    ∀ active : Option ReleasePlanAdmission,
      scanReleasePlanAdmissions key plan items active =
        scanReleasePlanAdmissions key plan (items.filter (matchesPlan plan)) active := by
  induction items with
  | nil => intro active; rfl
  | cons x xs ih =>
    intro active
    by_cases hx : x.Spec.Application = plan.Spec.Application
    · have hm : matchesPlan plan x = true := by simp [matchesPlan, hx]
      rw [List.filter_cons_of_pos hm]
      cases active with
      | some b => rw [scan_second_match key plan x b _ hx, scan_second_match key plan x b _ hx]
      | none =>
        by_cases hl : x.Labels.lookup key = some "false"
        · rw [scan_first_disabled key plan x _ hx hl, scan_first_disabled key plan x _ hx hl]
        · rw [scan_first_enabled key plan x _ hx hl, scan_first_enabled key plan x _ hx hl]
          exact ih (some x)
    · have hm : ¬ (matchesPlan plan x = true) := by simp [matchesPlan, hx]
      rw [List.filter_cons_of_neg hm, scan_nomatch_cons key plan x xs active hx]
      exact ih active

theorem contains_mid (a b c : String) : Contains (a ++ b ++ c) b := ⟨a, c, rfl⟩

theorem contains_mid4 (a b c d e : String) : Contains (a ++ b ++ c ++ d ++ e) b ∧
    Contains (a ++ b ++ c ++ d ++ e) d := by
  refine ⟨⟨a, c ++ d ++ e, ?_⟩, ⟨a ++ b ++ c, e, ?_⟩⟩
  · simp [String.append_assoc]
  · rfl

theorem contains_of_prefix (p p1 p2 rest : String) (h : p = p1 ++ p2) :
    Contains (p ++ rest) p1 := by
  subst h
  exact ⟨"", p2 ++ rest, by simp [String.append_assoc]⟩

theorem contains_of_suffix (p p1 p2 rest : String) (h : p = p1 ++ p2) :
    Contains (rest ++ p) p2 := by
  subst h
  exact ⟨rest ++ p1, "", by simp [String.append_assoc]⟩

theorem multipleMessage_contains (plan : ReleasePlan) :
    Contains (multipleMessage plan) "multiple ReleasePlanAdmissions found" ∧
    Contains (multipleMessage plan) plan.Spec.Target ∧
    Contains (multipleMessage plan) plan.Spec.Application := by
  refine ⟨?_, (contains_mid4 _ _ _ _ _).1, (contains_mid4 _ _ _ _ _).2⟩
  unfold multipleMessage
  simp only [String.append_assoc]
  exact contains_of_prefix _ _ " with the target (" _ (by decide)

theorem notFoundMessage_contains (plan : ReleasePlan) :
    Contains (notFoundMessage plan) "no ReleasePlanAdmission found in the target" ∧
    Contains (notFoundMessage plan) plan.Spec.Target ∧
    Contains (notFoundMessage plan) plan.Spec.Application := by
  refine ⟨?_, (contains_mid4 _ _ _ _ _).1, (contains_mid4 _ _ _ _ _).2⟩
  unfold notFoundMessage
  simp only [String.append_assoc]
  exact contains_of_prefix _ _ " (" _ (by decide)

theorem disabledMessage_contains (a : ReleasePlanAdmission) :
    Contains (disabledMessage a) "with auto-release label set to false" ∧
    Contains (disabledMessage a) a.Name := by
  refine ⟨?_, contains_mid _ _ _⟩
  unfold disabledMessage
  exact contains_of_suffix _ "\x27 " _ _ (by decide)


/-- What `GetActiveReleasePlanAdmission` returns once the store has answered
the list call with `items`, in terms of the scan. -/
theorem getActive_of_list (key : String) (cli : Client) (plan : ReleasePlan)
    (items : List ReleasePlanAdmission)
    (hlist : cli.ListReleasePlanAdmissions (admissionListOptions plan) = .ok items) :
    GetActiveReleasePlanAdmission key cli plan =
      match scanReleasePlanAdmissions key plan items none with
      | .error err =>
        ⟨none, some err, [StoreCall.List Kind.ReleasePlanAdmission (admissionListOptions plan)]⟩
      | .ok none =>
        ⟨none, some (.Errorf (notFoundMessage plan)),
          [StoreCall.List Kind.ReleasePlanAdmission (admissionListOptions plan)]⟩
      | .ok (some a) =>
        ⟨some a, none, [StoreCall.List Kind.ReleasePlanAdmission (admissionListOptions plan)]⟩ := by
  unfold GetActiveReleasePlanAdmission
  rw [hlist]
  rfl

/-- The scan of a list with exactly one candidate `a`, at any position. -/
theorem scan_single (key : String) (plan : ReleasePlan) (pre post : List ReleasePlanAdmission)
    (a : ReleasePlanAdmission)
    (hpre : ∀ x ∈ pre, x.Spec.Application ≠ plan.Spec.Application)
    (hpost : ∀ x ∈ post, x.Spec.Application ≠ plan.Spec.Application)
    (ha : a.Spec.Application = plan.Spec.Application) :
    scanReleasePlanAdmissions key plan (pre ++ a :: post) none =
      if a.Labels.lookup key = some "false" then .error (.Errorf (disabledMessage a))
      else .ok (some a) := by
  rw [scan_skip key plan pre _ none hpre]
  by_cases hl : a.Labels.lookup key = some "false"
  · rw [if_pos hl, scan_first_disabled key plan a post ha hl]
  · rw [if_neg hl, scan_first_enabled key plan a post ha hl,
      scan_nomatch key plan post (some a) hpost]

/-- When the scan ends with an admission in hand, either it was in hand
from the start and the list has no candidate, or it is the one candidate of
the list. -/
theorem scan_ok_some (key : String) (plan : ReleasePlan) (items : List ReleasePlanAdmission) :
    ∀ (active : Option ReleasePlanAdmission) (a : ReleasePlanAdmission),
      scanReleasePlanAdmissions key plan items active = .ok (some a) →
      (active = some a ∧ ∀ x ∈ items, x.Spec.Application ≠ plan.Spec.Application) ∨
      (active = none ∧ a.Labels.lookup key ≠ some "false" ∧
        ∃ pre post, items = pre ++ a :: post ∧
          a.Spec.Application = plan.Spec.Application ∧
          (∀ x ∈ pre, x.Spec.Application ≠ plan.Spec.Application) ∧
          (∀ x ∈ post, x.Spec.Application ≠ plan.Spec.Application)) := by
  induction items with
  | nil =>
    intro active a h
    simp [scanReleasePlanAdmissions] at h
    exact Or.inl ⟨h, by simp⟩
  | cons x xs ih =>
    intro active a h
    by_cases hx : x.Spec.Application = plan.Spec.Application
    · cases active with
      | some b =>
        rw [scan_second_match key plan x b xs hx] at h
        cases h
      | none =>
        by_cases hl : x.Labels.lookup key = some "false"
        · rw [scan_first_disabled key plan x xs hx hl] at h
          cases h
        · rw [scan_first_enabled key plan x xs hx hl] at h
          rcases ih (some x) a h with ⟨hxa, hno⟩ | ⟨hnone, _⟩
          · have hxa' : x = a := Option.some.inj hxa
            subst hxa'
            exact Or.inr ⟨rfl, hl, [], xs, rfl, hx, by simp, hno⟩
          · cases hnone
    · rw [scan_nomatch_cons key plan x xs active hx] at h
      rcases ih active a h with ⟨hact, hno⟩ | ⟨hnone, hl, pre, post, hsplit, ha, hpre, hpost⟩
      · refine Or.inl ⟨hact, ?_⟩
        intro y hy
        rcases List.mem_cons.mp hy with rfl | hy'
        · exact hx
        · exact hno y hy'
      · refine Or.inr ⟨hnone, hl, x :: pre, post, by rw [hsplit]; rfl, ha, ?_, hpost⟩
        intro y hy
        rcases List.mem_cons.mp hy with rfl | hy'
        · exact hx
        · exact hpre y hy'


/-! ## GetActiveReleasePlanAdmission: the claims -/

/-- C1: when the store answers the list call (Target namespace, origin the
namespace of the plan) with a list in which exactly one element `a` has the
Application of the plan, at any position and among any number of other
elements, and the auto-release label of `a` is absent or "true", the call
returns `a` and no error. -/
theorem getActive_returns_single_eligible (key : String) (cli : Client) (plan : ReleasePlan)
    (pre post : List ReleasePlanAdmission) (a : ReleasePlanAdmission)
    (hlist : cli.ListReleasePlanAdmissions (admissionListOptions plan) = .ok (pre ++ a :: post))
    (hpre : ∀ x ∈ pre, x.Spec.Application ≠ plan.Spec.Application)
    (hpost : ∀ x ∈ post, x.Spec.Application ≠ plan.Spec.Application)
    (ha : a.Spec.Application = plan.Spec.Application)
    (hlabel : a.Labels.lookup key = none ∨ a.Labels.lookup key = some "true") :
    (GetActiveReleasePlanAdmission key cli plan).val = some a ∧
      (GetActiveReleasePlanAdmission key cli plan).err = none := by
  have hl : a.Labels.lookup key ≠ some "false" := by
    rcases hlabel with h | h <;> rw [h] <;> decide
  rw [getActive_of_list key cli plan _ hlist, scan_single key plan pre post a hpre hpost ha,
    if_neg hl]
  exact ⟨rfl, rfl⟩

/-- C1 at a concrete store: the one "app1" admission, labelled "true", sits
between two admissions of other applications. -/
theorem getActive_returns_single_eligible_witness :
    (GetActiveReleasePlanAdmission "auto-release"
        (storeWithAdmissions [mkAdmission "x" "other" [],
          mkAdmission "a" "app1" [("auto-release", "true")],
          mkAdmission "y" "app2" [("auto-release", "false")]]) planApp1).val =
      some (mkAdmission "a" "app1" [("auto-release", "true")]) ∧
    (GetActiveReleasePlanAdmission "auto-release"
        (storeWithAdmissions [mkAdmission "x" "other" [],
          mkAdmission "a" "app1" [("auto-release", "true")],
          mkAdmission "y" "app2" [("auto-release", "false")]]) planApp1).err = none :=
  getActive_returns_single_eligible "auto-release" _ planApp1
    [mkAdmission "x" "other" []] [mkAdmission "y" "app2" [("auto-release", "false")]]
    (mkAdmission "a" "app1" [("auto-release", "true")]) rfl (by decide) (by decide) rfl
    (Or.inr (by decide))

/-- C3: when the list holds two or more elements with the Application of the
plan and every such element is eligible (label absent or "true"), in any
order and among any other elements, the call returns nil and the "multiple
ReleasePlanAdmissions found" error, whose message holds the Target and the
Application of the plan. -/
theorem getActive_multiple_eligible (key : String) (cli : Client) (plan : ReleasePlan)
    (items : List ReleasePlanAdmission)
    (hlist : cli.ListReleasePlanAdmissions (admissionListOptions plan) = .ok items)
    (htwo : 2 ≤ (items.filter (matchesPlan plan)).length)
    (helig : ∀ x ∈ items, x.Spec.Application = plan.Spec.Application →
      x.Labels.lookup key = none ∨ x.Labels.lookup key = some "true") :
    (GetActiveReleasePlanAdmission key cli plan).val = none ∧
      (∃ e, (GetActiveReleasePlanAdmission key cli plan).err = some e ∧
        e = .Errorf (multipleMessage plan) ∧
        Contains e.Error "multiple ReleasePlanAdmissions found" ∧
        Contains e.Error plan.Spec.Target ∧
        Contains e.Error plan.Spec.Application) := by
  have hscan : scanReleasePlanAdmissions key plan items none =
      .error (.Errorf (multipleMessage plan)) := by
    rw [scan_filter key plan items none]
    match hm : items.filter (matchesPlan plan), htwo with
    | a :: b :: rest, _ =>
      have hain : a ∈ items.filter (matchesPlan plan) := by rw [hm]; simp
      have hbin : b ∈ items.filter (matchesPlan plan) := by rw [hm]; simp
      have ha : a.Spec.Application = plan.Spec.Application := by
        simpa [matchesPlan] using (List.mem_filter.mp hain).2
      have hb : b.Spec.Application = plan.Spec.Application := by
        simpa [matchesPlan] using (List.mem_filter.mp hbin).2
      have hl : a.Labels.lookup key ≠ some "false" := by
        rcases helig a (List.mem_filter.mp hain).1 ha with h | h <;> rw [h] <;> decide
      rw [scan_first_enabled key plan a _ ha hl, scan_second_match key plan b a rest hb]
  rw [getActive_of_list key cli plan _ hlist, hscan]
  exact ⟨rfl, _, rfl, rfl, multipleMessage_contains plan⟩

/-- C3 at the scenario of the specification: plan to "prod" for "app1", one
unlabelled admission and one labelled "true". -/
theorem getActive_multiple_eligible_witness :
    (GetActiveReleasePlanAdmission "auto-release"
        (storeWithAdmissions [mkAdmission "a" "app1" [],
          mkAdmission "b" "app1" [("auto-release", "true")]]) planApp1).val = none ∧
      (∃ e, (GetActiveReleasePlanAdmission "auto-release"
          (storeWithAdmissions [mkAdmission "a" "app1" [],
            mkAdmission "b" "app1" [("auto-release", "true")]]) planApp1).err = some e ∧
        e = .Errorf (multipleMessage planApp1) ∧
        Contains e.Error "multiple ReleasePlanAdmissions found" ∧
        Contains e.Error "prod" ∧
        Contains e.Error "app1") :=
  getActive_multiple_eligible "auto-release" _ planApp1
    [mkAdmission "a" "app1" [], mkAdmission "b" "app1" [("auto-release", "true")]]
    rfl (by decide) (by decide)

/-- C4: when exactly one element `a` of the list has the Application of the
plan and its auto-release label is "false", the call returns nil and an
error whose message contains "with auto-release label set to false" and the
Name of `a`, however many other elements the list holds. -/
theorem getActive_single_disabled (key : String) (cli : Client) (plan : ReleasePlan)
    (pre post : List ReleasePlanAdmission) (a : ReleasePlanAdmission)
    (hlist : cli.ListReleasePlanAdmissions (admissionListOptions plan) = .ok (pre ++ a :: post))
    (hpre : ∀ x ∈ pre, x.Spec.Application ≠ plan.Spec.Application)
    (hpost : ∀ x ∈ post, x.Spec.Application ≠ plan.Spec.Application)
    (ha : a.Spec.Application = plan.Spec.Application)
    (hlabel : a.Labels.lookup key = some "false") :
    (GetActiveReleasePlanAdmission key cli plan).val = none ∧
      (∃ e, (GetActiveReleasePlanAdmission key cli plan).err = some e ∧
        e = .Errorf (disabledMessage a) ∧
        Contains e.Error "with auto-release label set to false" ∧
        Contains e.Error a.Name) := by
  rw [getActive_of_list key cli plan _ hlist, scan_single key plan pre post a hpre hpost ha,
    if_pos hlabel]
  exact ⟨rfl, _, rfl, rfl, disabledMessage_contains a⟩

/-- C4 at a concrete store: the only "app1" admission is labelled "false" and
stands after two admissions of other applications. -/
theorem getActive_single_disabled_witness :
    (GetActiveReleasePlanAdmission "auto-release"
        (storeWithAdmissions [mkAdmission "x" "other" [], mkAdmission "y" "app2" [],
          mkAdmission "off" "app1" [("auto-release", "false")]]) planApp1).val = none ∧
      (∃ e, (GetActiveReleasePlanAdmission "auto-release"
          (storeWithAdmissions [mkAdmission "x" "other" [], mkAdmission "y" "app2" [],
            mkAdmission "off" "app1" [("auto-release", "false")]]) planApp1).err = some e ∧
        e = .Errorf (disabledMessage (mkAdmission "off" "app1" [("auto-release", "false")])) ∧
        Contains e.Error "with auto-release label set to false" ∧
        Contains e.Error "off") :=
  getActive_single_disabled "auto-release" _ planApp1
    [mkAdmission "x" "other" [], mkAdmission "y" "app2" []] []
    (mkAdmission "off" "app1" [("auto-release", "false")]) rfl (by decide) (by decide) rfl
    (by decide)

/-- C5: when no element of the list (the empty list included) has the
Application of the plan, the call returns nil and an error whose message
contains "no ReleasePlanAdmission found in the target", the Target and the
Application of the plan. -/
theorem getActive_no_candidate (key : String) (cli : Client) (plan : ReleasePlan)
    (items : List ReleasePlanAdmission)
    (hlist : cli.ListReleasePlanAdmissions (admissionListOptions plan) = .ok items)
    (hnone : ∀ x ∈ items, x.Spec.Application ≠ plan.Spec.Application) :
    (GetActiveReleasePlanAdmission key cli plan).val = none ∧
      (∃ e, (GetActiveReleasePlanAdmission key cli plan).err = some e ∧
        e = .Errorf (notFoundMessage plan) ∧
        Contains e.Error "no ReleasePlanAdmission found in the target" ∧
        Contains e.Error plan.Spec.Target ∧
        Contains e.Error plan.Spec.Application) := by
  rw [getActive_of_list key cli plan _ hlist, scan_nomatch key plan items none hnone]
  exact ⟨rfl, _, rfl, rfl, notFoundMessage_contains plan⟩

/-- C5 at a concrete store holding only admissions of other applications. -/
theorem getActive_no_candidate_witness :
    (GetActiveReleasePlanAdmission "auto-release"
        (storeWithAdmissions [mkAdmission "x" "other" [],
          mkAdmission "y" "app2" [("auto-release", "false")]]) planApp1).val = none ∧
      (∃ e, (GetActiveReleasePlanAdmission "auto-release"
          (storeWithAdmissions [mkAdmission "x" "other" [],
            mkAdmission "y" "app2" [("auto-release", "false")]]) planApp1).err = some e ∧
        e = .Errorf (notFoundMessage planApp1) ∧
        Contains e.Error "no ReleasePlanAdmission found in the target" ∧
        Contains e.Error "prod" ∧
        Contains e.Error "app1") :=
  getActive_no_candidate "auto-release" _ planApp1
    [mkAdmission "x" "other" [], mkAdmission "y" "app2" [("auto-release", "false")]]
    rfl (by decide)

/-- C6: the call never picks one of several candidates. When it returns an
admission `a`, the error is nil, the store listed `a`, `a` has the
Application of the plan, and no element listed before or after `a` has that
Application. -/
theorem getActive_success_unique (key : String) (cli : Client) (plan : ReleasePlan)
    (a : ReleasePlanAdmission)
    (hret : (GetActiveReleasePlanAdmission key cli plan).val = some a) :
    (GetActiveReleasePlanAdmission key cli plan).err = none ∧
      ∃ pre post,
        cli.ListReleasePlanAdmissions (admissionListOptions plan) = .ok (pre ++ a :: post) ∧
        a.Spec.Application = plan.Spec.Application ∧
        (∀ x ∈ pre, x.Spec.Application ≠ plan.Spec.Application) ∧
        (∀ x ∈ post, x.Spec.Application ≠ plan.Spec.Application) := by
  cases hlist : cli.ListReleasePlanAdmissions (admissionListOptions plan) with
  | error err =>
    unfold GetActiveReleasePlanAdmission at hret
    rw [hlist] at hret
    cases hret
  | ok items =>
    rw [getActive_of_list key cli plan items hlist] at hret ⊢
    cases hscan : scanReleasePlanAdmissions key plan items none with
    | error err => rw [hscan] at hret; cases hret
    | ok active =>
      cases active with
      | none => rw [hscan] at hret; cases hret
      | some b =>
        rw [hscan] at hret
        have hba : b = a := Option.some.inj hret
        subst hba
        rcases scan_ok_some key plan items none b hscan with ⟨h, _⟩ | ⟨_, _, pre, post, hs, hrest⟩
        · cases h
        · exact ⟨rfl, pre, post, by rw [hs], hrest⟩

/-- C6 at a concrete store: the admission returned is the one "app1" element
of the list. -/
theorem getActive_success_unique_witness :
    (GetActiveReleasePlanAdmission "auto-release"
        (storeWithAdmissions [mkAdmission "x" "other" [], mkAdmission "a" "app1" []])
        planApp1).err = none ∧
      ∃ pre post,
        (storeWithAdmissions [mkAdmission "x" "other" [],
          mkAdmission "a" "app1" []]).ListReleasePlanAdmissions (admissionListOptions planApp1) =
            .ok (pre ++ mkAdmission "a" "app1" [] :: post) ∧
        (mkAdmission "a" "app1" []).Spec.Application = planApp1.Spec.Application ∧
        (∀ x ∈ pre, x.Spec.Application ≠ planApp1.Spec.Application) ∧
        (∀ x ∈ post, x.Spec.Application ≠ planApp1.Spec.Application) :=
  getActive_success_unique "auto-release" _ planApp1 (mkAdmission "a" "app1" []) (by decide)


/-! ## Evaluations of GetActiveReleasePlanAdmission where it departs from its contract -/

/-- C2: an eligible "app1" admission listed before one labelled "false". The
scan meets the second candidate with the first one in hand and reports
"multiple ReleasePlanAdmissions found"; the opt-out error naming the
"false"-labelled admission is not returned. -/
theorem getActive_disabled_after_eligible :
    (GetActiveReleasePlanAdmission "auto-release"
        (storeWithAdmissions [mkAdmission "release-plan-admission" "app1" [("auto-release", "true")],
          mkAdmission "disabled-release-plan-admission" "app1" [("auto-release", "false")]])
        planApp1).err =
      some (.Errorf
        "multiple ReleasePlanAdmissions found with the target (prod) for application \x27app1\x27") ∧
    (GetActiveReleasePlanAdmission "auto-release"
        (storeWithAdmissions [mkAdmission "release-plan-admission" "app1" [("auto-release", "true")],
          mkAdmission "disabled-release-plan-admission" "app1" [("auto-release", "false")]])
        planApp1).err ≠
      some (.Errorf (disabledMessage
        (mkAdmission "disabled-release-plan-admission" "app1" [("auto-release", "false")]))) := by
  decide

/-- C7: the only "app1" admission carries the auto-release label "foo". The
call succeeds and returns it, although its label is neither absent nor
"true". -/
theorem getActive_returns_label_foo :
    (GetActiveReleasePlanAdmission "auto-release"
        (storeWithAdmissions [mkAdmission "a" "app1" [("auto-release", "foo")]])
        planApp1).val = some (mkAdmission "a" "app1" [("auto-release", "foo")]) ∧
    (GetActiveReleasePlanAdmission "auto-release"
        (storeWithAdmissions [mkAdmission "a" "app1" [("auto-release", "foo")]])
        planApp1).err = none ∧
    (mkAdmission "a" "app1" [("auto-release", "foo")]).Labels.lookup "auto-release" =
      some "foo" := by
  decide

/-! ## Splitting the status reference -/

theorem splitChars_ne_nil (sep : Char) (l : List Char) : splitChars sep l ≠ [] := by
  induction l with
  | nil => simp [splitChars]
  | cons c cs ih =>
    by_cases hc : c = sep
    · simp [splitChars, hc]
    · cases h : splitChars sep cs with
      | nil => exact absurd h ih
      | cons seg segs => simp [splitChars, hc, h]

theorem splitChars_length (sep : Char) (l : List Char) :
    (splitChars sep l).length = l.count sep + 1 := by
  induction l with
  | nil => simp [splitChars]
  | cons c cs ih =>
    by_cases hc : c = sep
    · simp [splitChars, hc, ih]
    · cases h : splitChars sep cs with
      | nil => exact absurd h (splitChars_ne_nil sep cs)
      | cons seg segs =>
        rw [h] at ih
        simp [splitChars, hc, h, List.count_cons] at ih ⊢
        exact ih

theorem splitChars_no_sep (sep : Char) (l : List Char) (h : sep ∉ l) :
    splitChars sep l = [l] := by
  induction l with
  | nil => rfl
  | cons c cs ih =>
    have hc : c ≠ sep := fun e => h (by rw [e]; exact List.mem_cons_self sep cs)
    have hcs : sep ∉ cs := fun m => h (List.mem_cons_of_mem c m)
    simp [splitChars, hc, ih hcs]

theorem splitChars_append_sep (sep : Char) (xs ys : List Char) (h : sep ∉ xs) :
    splitChars sep (xs ++ sep :: ys) = xs :: splitChars sep ys := by
  induction xs with
  | nil => simp [splitChars]
  | cons c cs ih =>
    have hc : c ≠ sep := fun e => h (by rw [e]; exact List.mem_cons_self sep cs)
    have hcs : sep ∉ cs := fun m => h (List.mem_cons_of_mem c m)
    simp [splitChars, hc, ih hcs]

/-- A string with exactly one separator splits into its two sides. -/
theorem stringsSplit_pair (ns name : String) (hns : Separator ∉ ns.data)
    (hname : Separator ∉ name.data) :
    stringsSplit (ns ++ "/" ++ name) Separator = [ns, name] := by
  have hdata : (ns ++ "/" ++ name).data = ns.data ++ Separator :: name.data := by
    simp [String.data_append, Separator]
  unfold stringsSplit
  rw [hdata, splitChars_append_sep Separator ns.data name.data hns,
    splitChars_no_sep Separator name.data hname]
  rfl

theorem malformedMessage_contains (reference : String) :
    Contains (malformedMessage reference)
      "release doesn\x27t contain a valid reference to an SnapshotEnvironmentBinding" ∧
    Contains (malformedMessage reference) reference := by
  refine ⟨?_, contains_mid _ _ _⟩
  unfold malformedMessage
  simp only [String.append_assoc]
  exact contains_of_prefix _ _ " (\x27" _ (by decide)

/-- What `GetSnapshotEnvironmentBindingFromReleaseStatus` does when the
status string splits into the two segments `ns` and `name`. -/
theorem getBindingFromStatus_of_pair (cli : Client) (release : Release) (ns name : String)
    (hsplit : stringsSplit release.Status.SnapshotEnvironmentBinding Separator = [ns, name]) :
    GetSnapshotEnvironmentBindingFromReleaseStatus cli release =
      match cli.GetSnapshotEnvironmentBinding { Namespace := ns, Name := name } with
      | .ok stored =>
        ⟨some stored, none,
          [StoreCall.Get Kind.SnapshotEnvironmentBinding { Namespace := ns, Name := name }]⟩
      | .error err =>
        ⟨none, some err,
          [StoreCall.Get Kind.SnapshotEnvironmentBinding { Namespace := ns, Name := name }]⟩ := by
  unfold GetSnapshotEnvironmentBindingFromReleaseStatus
  simp only [hsplit, clientGet, StoreObject.get, StoreObject.kind]
  cases h : cli.GetSnapshotEnvironmentBinding { Namespace := ns, Name := name } with
  | ok stored => simp [h]
  | error err => simp [h]


/-! ## GetSnapshotEnvironmentBindingFromReleaseStatus: the claims -/

/-- C8: when the status string of the Release does not split on "/" into
exactly two segments, the call returns nil and an error whose message
contains "release doesn't contain a valid reference to an
SnapshotEnvironmentBinding" and the raw string, and it issues no store
call. -/
theorem getBindingFromStatus_malformed (cli : Client) (release : Release)
    (hsegments :
      (stringsSplit release.Status.SnapshotEnvironmentBinding Separator).length ≠ 2) :
    (GetSnapshotEnvironmentBindingFromReleaseStatus cli release).val = none ∧
      (∃ e, (GetSnapshotEnvironmentBindingFromReleaseStatus cli release).err = some e ∧
        e = .Errorf (malformedMessage release.Status.SnapshotEnvironmentBinding) ∧
        Contains e.Error
          "release doesn\x27t contain a valid reference to an SnapshotEnvironmentBinding" ∧
        Contains e.Error release.Status.SnapshotEnvironmentBinding) ∧
      (GetSnapshotEnvironmentBindingFromReleaseStatus cli release).calls = [] := by
  have hret : GetSnapshotEnvironmentBindingFromReleaseStatus cli release =
      ⟨none, some (.Errorf (malformedMessage release.Status.SnapshotEnvironmentBinding)), []⟩ := by
    unfold GetSnapshotEnvironmentBindingFromReleaseStatus
    simp [hsegments, malformedMessage]
  rw [hret]
  exact ⟨rfl, ⟨_, rfl, rfl, malformedMessage_contains _⟩, rfl⟩

/-- C8 at the three malformed references of the specification, against a
store that would answer any lookup: "", "onlyname" and "a/b/c" are each
refused without a store call. -/
theorem getBindingFromStatus_malformed_witness :
    ((GetSnapshotEnvironmentBindingFromReleaseStatus
        (storeWithBinding { Namespace := "a", Name := "b" } {}) (releaseWithStatus "")).err =
        some (.Errorf (malformedMessage "")) ∧
      (GetSnapshotEnvironmentBindingFromReleaseStatus
        (storeWithBinding { Namespace := "a", Name := "b" } {}) (releaseWithStatus "")).calls =
        []) ∧
    ((GetSnapshotEnvironmentBindingFromReleaseStatus
        (storeWithBinding { Namespace := "a", Name := "b" } {})
        (releaseWithStatus "onlyname")).err = some (.Errorf (malformedMessage "onlyname")) ∧
      (GetSnapshotEnvironmentBindingFromReleaseStatus
        (storeWithBinding { Namespace := "a", Name := "b" } {})
        (releaseWithStatus "onlyname")).calls = []) ∧
    ((GetSnapshotEnvironmentBindingFromReleaseStatus
        (storeWithBinding { Namespace := "a", Name := "b" } {})
        (releaseWithStatus "a/b/c")).err = some (.Errorf (malformedMessage "a/b/c")) ∧
      (GetSnapshotEnvironmentBindingFromReleaseStatus
        (storeWithBinding { Namespace := "a", Name := "b" } {})
        (releaseWithStatus "a/b/c")).calls = []) := by
  refine ⟨?_, ?_, ?_⟩
  · obtain ⟨_, ⟨e, he, hmsg, _⟩, hcalls⟩ := getBindingFromStatus_malformed
      (storeWithBinding { Namespace := "a", Name := "b" } {}) (releaseWithStatus "") (by decide)
    exact ⟨by rw [he, hmsg]; rfl, hcalls⟩
  · obtain ⟨_, ⟨e, he, hmsg, _⟩, hcalls⟩ := getBindingFromStatus_malformed
      (storeWithBinding { Namespace := "a", Name := "b" } {}) (releaseWithStatus "onlyname")
      (by decide)
    exact ⟨by rw [he, hmsg]; rfl, hcalls⟩
  · obtain ⟨_, ⟨e, he, hmsg, _⟩, hcalls⟩ := getBindingFromStatus_malformed
      (storeWithBinding { Namespace := "a", Name := "b" } {}) (releaseWithStatus "a/b/c")
      (by decide)
    exact ⟨by rw [he, hmsg]; rfl, hcalls⟩

/-- C9, the claim as stated fails: the reference "/name" has an empty
namespace segment, yet the call is not refused as malformed. It issues the
lookup with the empty Namespace and returns the binding the store answers
with. -/
theorem getBindingFromStatus_empty_namespace_accepted :
    stringsSplit "/name" Separator = ["", "name"] ∧
    (GetSnapshotEnvironmentBindingFromReleaseStatus
        (storeWithBinding { Namespace := "", Name := "name" } { Name := "name" })
        (releaseWithStatus "/name")).calls =
      [StoreCall.Get Kind.SnapshotEnvironmentBinding { Namespace := "", Name := "name" }] ∧
    (GetSnapshotEnvironmentBindingFromReleaseStatus
        (storeWithBinding { Namespace := "", Name := "name" } { Name := "name" })
        (releaseWithStatus "/name")).err = none ∧
    (GetSnapshotEnvironmentBindingFromReleaseStatus
        (storeWithBinding { Namespace := "", Name := "name" } { Name := "name" })
        (releaseWithStatus "/name")).val = some { Name := "name" } := by
  decide

/-- C9 as amended: every reference that splits on "/" into exactly two
segments is accepted, whether or not a segment is empty. The call is not
refused as malformed: it issues exactly one Get whose Namespace is the first
segment and whose Name is the second, and its result is the result of that
Get. -/
theorem getBindingFromStatus_two_segments (cli : Client) (release : Release)
    (hsegments :
      (stringsSplit release.Status.SnapshotEnvironmentBinding Separator).length = 2) :
    (GetSnapshotEnvironmentBindingFromReleaseStatus cli release).calls =
        [StoreCall.Get Kind.SnapshotEnvironmentBinding
          { Namespace :=
              (stringsSplit release.Status.SnapshotEnvironmentBinding Separator).getD 0 "",
            Name :=
              (stringsSplit release.Status.SnapshotEnvironmentBinding Separator).getD 1 "" }] ∧
      (∀ stored, cli.GetSnapshotEnvironmentBinding
          { Namespace :=
              (stringsSplit release.Status.SnapshotEnvironmentBinding Separator).getD 0 "",
            Name :=
              (stringsSplit release.Status.SnapshotEnvironmentBinding Separator).getD 1 "" } =
          .ok stored →
        (GetSnapshotEnvironmentBindingFromReleaseStatus cli release).val = some stored ∧
        (GetSnapshotEnvironmentBindingFromReleaseStatus cli release).err = none) ∧
      (∀ err, cli.GetSnapshotEnvironmentBinding
          { Namespace :=
              (stringsSplit release.Status.SnapshotEnvironmentBinding Separator).getD 0 "",
            Name :=
              (stringsSplit release.Status.SnapshotEnvironmentBinding Separator).getD 1 "" } =
          .error err →
        (GetSnapshotEnvironmentBindingFromReleaseStatus cli release).val = none ∧
        (GetSnapshotEnvironmentBindingFromReleaseStatus cli release).err = some err) := by
  match hsplit : stringsSplit release.Status.SnapshotEnvironmentBinding Separator,
    hsegments with
  | [ns, name], _ =>
    rw [getBindingFromStatus_of_pair cli release ns name hsplit]
    cases hget : cli.GetSnapshotEnvironmentBinding { Namespace := ns, Name := name } with
    | ok stored => simp [hget]
    | error err => simp [hget]

/-- C9 as amended, at "/": both segments are empty, the store is asked for
the key with the empty Namespace and the empty Name, and its NotFound answer
is what the call returns. -/
theorem getBindingFromStatus_two_segments_witness :
    (GetSnapshotEnvironmentBindingFromReleaseStatus emptyStore (releaseWithStatus "/")).calls =
        [StoreCall.Get Kind.SnapshotEnvironmentBinding { Namespace := "", Name := "" }] ∧
      (GetSnapshotEnvironmentBindingFromReleaseStatus emptyStore
        (releaseWithStatus "/")).val = none ∧
      (GetSnapshotEnvironmentBindingFromReleaseStatus emptyStore
        (releaseWithStatus "/")).err = some (.Status "NotFound" "not found") :=
  have h := getBindingFromStatus_two_segments emptyStore (releaseWithStatus "/") (by decide)
  ⟨h.1, h.2.2 (.Status "NotFound" "not found") rfl⟩

/-- C10: for a status string `ns ++ "/" ++ name` in which neither `ns` nor
`name` contains "/", the string decodes into the pair (`ns`, `name`), which
joined with "/" is the stored string again; the call issues exactly one
store Get, with Namespace `ns` and Name `name`; when that Get succeeds the
call returns the fetched binding and no error, and when it fails the call
returns nil and the error of the Get. -/
theorem getBindingFromStatus_valid (cli : Client) (release : Release) (ns name : String)
    (hstatus : release.Status.SnapshotEnvironmentBinding = ns ++ "/" ++ name)
    (hns : Separator ∉ ns.data) (hname : Separator ∉ name.data) :
    stringsSplit release.Status.SnapshotEnvironmentBinding Separator = [ns, name] ∧
      String.intercalate "/" (stringsSplit release.Status.SnapshotEnvironmentBinding Separator) =
        release.Status.SnapshotEnvironmentBinding ∧
      (GetSnapshotEnvironmentBindingFromReleaseStatus cli release).calls =
        [StoreCall.Get Kind.SnapshotEnvironmentBinding { Namespace := ns, Name := name }] ∧
      (∀ stored, cli.GetSnapshotEnvironmentBinding { Namespace := ns, Name := name } =
          .ok stored →
        (GetSnapshotEnvironmentBindingFromReleaseStatus cli release).val = some stored ∧
        (GetSnapshotEnvironmentBindingFromReleaseStatus cli release).err = none) ∧
      (∀ err, cli.GetSnapshotEnvironmentBinding { Namespace := ns, Name := name } =
          .error err →
        (GetSnapshotEnvironmentBindingFromReleaseStatus cli release).val = none ∧
        (GetSnapshotEnvironmentBindingFromReleaseStatus cli release).err = some err) := by
  have hsplit : stringsSplit release.Status.SnapshotEnvironmentBinding Separator =
      [ns, name] := by rw [hstatus]; exact stringsSplit_pair ns name hns hname
  refine ⟨hsplit, ?_, ?_⟩
  · rw [hsplit, hstatus]
    simp [String.intercalate, String.intercalate.go]
  · rw [getBindingFromStatus_of_pair cli release ns name hsplit]
    cases hget : cli.GetSnapshotEnvironmentBinding { Namespace := ns, Name := name } with
    | ok stored => simp
    | error err => simp

/-- C10 at the reference of the test suite, "default/snapshot-environment-binding",
with the binding stored under that key: one Get, and the binding comes back. -/
theorem getBindingFromStatus_valid_witness :
    (GetSnapshotEnvironmentBindingFromReleaseStatus
        (storeWithBinding { Namespace := "default", Name := "snapshot-environment-binding" }
          { Name := "snapshot-environment-binding", Namespace := "default" })
        (releaseWithStatus "default/snapshot-environment-binding")).calls =
      [StoreCall.Get Kind.SnapshotEnvironmentBinding
        { Namespace := "default", Name := "snapshot-environment-binding" }] ∧
    (GetSnapshotEnvironmentBindingFromReleaseStatus
        (storeWithBinding { Namespace := "default", Name := "snapshot-environment-binding" }
          { Name := "snapshot-environment-binding", Namespace := "default" })
        (releaseWithStatus "default/snapshot-environment-binding")).val =
      some { Name := "snapshot-environment-binding", Namespace := "default" } ∧
    (GetSnapshotEnvironmentBindingFromReleaseStatus
        (storeWithBinding { Namespace := "default", Name := "snapshot-environment-binding" }
          { Name := "snapshot-environment-binding", Namespace := "default" })
        (releaseWithStatus "default/snapshot-environment-binding")).err = none :=
  have h := getBindingFromStatus_valid
    (storeWithBinding { Namespace := "default", Name := "snapshot-environment-binding" }
      { Name := "snapshot-environment-binding", Namespace := "default" })
    (releaseWithStatus "default/snapshot-environment-binding")
    "default" "snapshot-environment-binding" (by decide) (by decide) (by decide)
  ⟨h.2.2.1, h.2.2.2.1 { Name := "snapshot-environment-binding", Namespace := "default" } rfl⟩


/-! ## GetSnapshotEnvironmentBindingResources: the claims -/

/-- The store calls of the four resolvers the bundle is built from: each
issues exactly one call, whatever the store answers. -/
theorem resolver_calls (cli : Client) (release : Release) (rpa : ReleasePlanAdmission)
    (application : Application) :
    (GetApplication cli rpa).calls =
        [StoreCall.Get Kind.Application (objectKey rpa.Spec.Application rpa.Namespace)] ∧
      (GetApplicationComponents cli application).calls =
        [StoreCall.List Kind.Component (componentListOptions application)] ∧
      (GetEnvironment cli rpa).calls =
        [StoreCall.Get Kind.Environment (objectKey rpa.Spec.Environment rpa.Namespace)] ∧
      (GetSnapshot cli release).calls =
        [StoreCall.Get Kind.Snapshot (objectKey release.Spec.Snapshot release.Namespace)] := by
  refine ⟨?_, ?_, ?_, ?_⟩
  · simp only [GetApplication, getObject, clientGet, objectKey]
    split <;> rfl
  · simp only [GetApplicationComponents, componentListOptions]
    split <;> rfl
  · simp only [GetEnvironment, getObject, clientGet, objectKey]
    split <;> rfl
  · simp only [GetSnapshot, getObject, clientGet, objectKey]
    split <;> rfl

/-- C11: the bundle assembler returns no error exactly when GetApplication
(via the admission), GetApplicationComponents (via that application),
GetEnvironment (via the admission) and GetSnapshot (via the release) all
succeed, and then the four fields of the bundle are the four values those
resolvers returned. -/
theorem resources_no_error_iff (cli : Client) (release : Release)
    (rpa : ReleasePlanAdmission) :
    ((GetSnapshotEnvironmentBindingResources cli release rpa).err = none ↔
        (GetApplication cli rpa).err = none ∧
        (GetApplicationComponents cli (GetApplication cli rpa).val).err = none ∧
        (GetEnvironment cli rpa).err = none ∧
        (GetSnapshot cli release).err = none) ∧
      ((GetSnapshotEnvironmentBindingResources cli release rpa).err = none →
        (GetSnapshotEnvironmentBindingResources cli release rpa).val =
          some { Application := some (GetApplication cli rpa).val,
                 ApplicationComponents :=
                   (GetApplicationComponents cli (GetApplication cli rpa).val).val,
                 Environment := some (GetEnvironment cli rpa).val,
                 Snapshot := some (GetSnapshot cli release).val }) := by
  unfold GetSnapshotEnvironmentBindingResources
  cases h1 : (GetApplication cli rpa).err with
  | some e1 => simp [h1]
  | none =>
    cases h2 : (GetApplicationComponents cli (GetApplication cli rpa).val).err with
    | some e2 => simp [h1, h2]
    | none =>
      cases h3 : (GetEnvironment cli rpa).err with
      | some e3 => simp [h1, h2, h3]
      | none =>
        cases h4 : (GetSnapshot cli release).err with
        | some e4 => simp [h1, h2, h3, h4]
        | none => simp [h1, h2, h3, h4]

/-- C11 at the store of the test suite: all four lookups succeed and the
bundle holds the application, its component, the environment and the
snapshot. -/
theorem resources_no_error_iff_witness :
    (GetSnapshotEnvironmentBindingResources suiteStore suiteRelease
        suiteReleasePlanAdmission).err = none ∧
      (GetSnapshotEnvironmentBindingResources suiteStore suiteRelease
        suiteReleasePlanAdmission).val =
        some { Application := some suiteApplication,
               ApplicationComponents := [suiteComponent],
               Environment := some suiteEnvironment,
               Snapshot := some suiteSnapshot } :=
  ⟨by decide,
    (resources_no_error_iff suiteStore suiteRelease suiteReleasePlanAdmission).2 (by decide)⟩

/-- C12: on failure the assembler hands back a non-nil bundle together with
the error: the fields of the steps before the failing one (in the order
Application, ApplicationComponents, Environment, Snapshot) hold the values
resolved, the field of the failing step and every later field are at their
zero value. In particular, when Environment is the step that fails,
Application and ApplicationComponents are populated and Environment and
Snapshot are nil. -/
theorem resources_partial_on_failure (cli : Client) (release : Release)
    (rpa : ReleasePlanAdmission) (e : GoError) :
    ((GetApplication cli rpa).err = some e →
        (GetSnapshotEnvironmentBindingResources cli release rpa).val =
          some { Application := none, ApplicationComponents := [],
                 Environment := none, Snapshot := none } ∧
        (GetSnapshotEnvironmentBindingResources cli release rpa).err = some e) ∧
      ((GetApplication cli rpa).err = none →
        (GetApplicationComponents cli (GetApplication cli rpa).val).err = some e →
        (GetSnapshotEnvironmentBindingResources cli release rpa).val =
          some { Application := some (GetApplication cli rpa).val,
                 ApplicationComponents := [], Environment := none, Snapshot := none } ∧
        (GetSnapshotEnvironmentBindingResources cli release rpa).err = some e) ∧
      ((GetApplication cli rpa).err = none →
        (GetApplicationComponents cli (GetApplication cli rpa).val).err = none →
        (GetEnvironment cli rpa).err = some e →
        (GetSnapshotEnvironmentBindingResources cli release rpa).val =
          some { Application := some (GetApplication cli rpa).val,
                 ApplicationComponents :=
                   (GetApplicationComponents cli (GetApplication cli rpa).val).val,
                 Environment := none, Snapshot := none } ∧
        (GetSnapshotEnvironmentBindingResources cli release rpa).err = some e) ∧
      ((GetApplication cli rpa).err = none →
        (GetApplicationComponents cli (GetApplication cli rpa).val).err = none →
        (GetEnvironment cli rpa).err = none →
        (GetSnapshot cli release).err = some e →
        (GetSnapshotEnvironmentBindingResources cli release rpa).val =
          some { Application := some (GetApplication cli rpa).val,
                 ApplicationComponents :=
                   (GetApplicationComponents cli (GetApplication cli rpa).val).val,
                 Environment := some (GetEnvironment cli rpa).val, Snapshot := none } ∧
        (GetSnapshotEnvironmentBindingResources cli release rpa).err = some e) := by
  unfold GetSnapshotEnvironmentBindingResources
  refine ⟨?_, ?_, ?_, ?_⟩
  · intro h1
    simp [h1]
  · intro h1 h2
    simp [h1, h2]
  · intro h1 h2 h3
    simp [h1, h2, h3]
  · intro h1 h2 h3 h4
    simp [h1, h2, h3, h4]

/-- C12 at the suite store without its Environment: the bundle comes back
with Application and ApplicationComponents populated, Environment and
Snapshot nil, and the error of the Environment lookup. -/
theorem resources_partial_on_failure_witness :
    (GetSnapshotEnvironmentBindingResources storeWithoutEnvironment suiteRelease
        suiteReleasePlanAdmission).val =
        some { Application := some suiteApplication,
               ApplicationComponents := [suiteComponent],
               Environment := none, Snapshot := none } ∧
      (GetSnapshotEnvironmentBindingResources storeWithoutEnvironment suiteRelease
        suiteReleasePlanAdmission).err = some (.Status "NotFound" "environment gone") :=
  (resources_partial_on_failure storeWithoutEnvironment suiteRelease suiteReleasePlanAdmission
    (.Status "NotFound" "environment gone")).2.2.1 (by decide) (by decide) (by decide)


/-- C13: the assembler stops at the first failure. The error it returns is
the error of the first resolver that fails in the sequence Application,
Components, Environment, Snapshot, and the store calls it issued end with
the call of that resolver: no call of a later resolver follows. -/
theorem resources_stops_at_first_failure (cli : Client) (release : Release)
    (rpa : ReleasePlanAdmission) (e : GoError) :
    ((GetApplication cli rpa).err = some e →
        (GetSnapshotEnvironmentBindingResources cli release rpa).err = some e ∧
        (GetSnapshotEnvironmentBindingResources cli release rpa).calls =
          [StoreCall.Get Kind.Application (objectKey rpa.Spec.Application rpa.Namespace)]) ∧
      ((GetApplication cli rpa).err = none →
        (GetApplicationComponents cli (GetApplication cli rpa).val).err = some e →
        (GetSnapshotEnvironmentBindingResources cli release rpa).err = some e ∧
        (GetSnapshotEnvironmentBindingResources cli release rpa).calls =
          [StoreCall.Get Kind.Application (objectKey rpa.Spec.Application rpa.Namespace),
           StoreCall.List Kind.Component (componentListOptions (GetApplication cli rpa).val)]) ∧
      ((GetApplication cli rpa).err = none →
        (GetApplicationComponents cli (GetApplication cli rpa).val).err = none →
        (GetEnvironment cli rpa).err = some e →
        (GetSnapshotEnvironmentBindingResources cli release rpa).err = some e ∧
        (GetSnapshotEnvironmentBindingResources cli release rpa).calls =
          [StoreCall.Get Kind.Application (objectKey rpa.Spec.Application rpa.Namespace),
           StoreCall.List Kind.Component (componentListOptions (GetApplication cli rpa).val),
           StoreCall.Get Kind.Environment (objectKey rpa.Spec.Environment rpa.Namespace)]) ∧
      ((GetApplication cli rpa).err = none →
        (GetApplicationComponents cli (GetApplication cli rpa).val).err = none →
        (GetEnvironment cli rpa).err = none →
        (GetSnapshot cli release).err = some e →
        (GetSnapshotEnvironmentBindingResources cli release rpa).err = some e ∧
        (GetSnapshotEnvironmentBindingResources cli release rpa).calls =
          [StoreCall.Get Kind.Application (objectKey rpa.Spec.Application rpa.Namespace),
           StoreCall.List Kind.Component (componentListOptions (GetApplication cli rpa).val),
           StoreCall.Get Kind.Environment (objectKey rpa.Spec.Environment rpa.Namespace),
           StoreCall.Get Kind.Snapshot (objectKey release.Spec.Snapshot release.Namespace)]) := by
  obtain ⟨c1, c2, c3, c4⟩ := resolver_calls cli release rpa (GetApplication cli rpa).val
  unfold GetSnapshotEnvironmentBindingResources
  refine ⟨?_, ?_, ?_, ?_⟩
  · intro h1
    simp [h1, c1]
  · intro h1 h2
    simp [h1, h2, c1, c2]
  · intro h1 h2 h3
    simp [h1, h2, h3, c1, c2, c3]
  · intro h1 h2 h3 h4
    simp [h1, h2, h3, h4, c1, c2, c3, c4]

/-- C13 at the suite store without its Environment: the error is the one of
the Environment lookup and the calls are the Application Get, the Component
List and the Environment Get; the Snapshot is never asked for. -/
theorem resources_stops_at_first_failure_witness :
    (GetSnapshotEnvironmentBindingResources storeWithoutEnvironment suiteRelease
        suiteReleasePlanAdmission).err = some (.Status "NotFound" "environment gone") ∧
      (GetSnapshotEnvironmentBindingResources storeWithoutEnvironment suiteRelease
        suiteReleasePlanAdmission).calls =
        [StoreCall.Get Kind.Application (objectKey "application" "default"),
         StoreCall.List Kind.Component (componentListOptions suiteApplication),
         StoreCall.Get Kind.Environment (objectKey "environment" "default")] :=
  (resources_stops_at_first_failure storeWithoutEnvironment suiteRelease
    suiteReleasePlanAdmission (.Status "NotFound" "environment gone")).2.2.1
    (by decide) (by decide) (by decide)

/-! ## GetSnapshotEnvironmentBinding: the claims -/

theorem scanBindings_nomatch (rpa : ReleasePlanAdmission)
    (items : List SnapshotEnvironmentBinding)
    (h : ∀ b ∈ items, b.Spec.Application ≠ rpa.Spec.Application) :
    scanBindings rpa items = none := by
  induction items with
  | nil => rfl
  | cons x xs ih =>
    have hx : x.Spec.Application ≠ rpa.Spec.Application := h x (List.mem_cons_self x xs)
    simp only [scanBindings, beq_iff_eq, hx, if_false]
    exact ih (fun b hb => h b (List.mem_cons_of_mem x hb))

theorem scanBindings_first (rpa : ReleasePlanAdmission)
    (pre post : List SnapshotEnvironmentBinding) (b : SnapshotEnvironmentBinding)
    (hpre : ∀ x ∈ pre, x.Spec.Application ≠ rpa.Spec.Application)
    (hb : b.Spec.Application = rpa.Spec.Application) :
    scanBindings rpa (pre ++ b :: post) = some b := by
  induction pre with
  | nil => simp [scanBindings, hb]
  | cons x xs ih =>
    have hx : x.Spec.Application ≠ rpa.Spec.Application := hpre x (List.mem_cons_self x xs)
    simp only [List.cons_append, scanBindings, beq_iff_eq, hx, if_false]
    exact ih (fun y hy => hpre y (List.mem_cons_of_mem x hy))

/-- What `GetSnapshotEnvironmentBinding` returns for each answer of the list
call. -/
theorem getBinding_of_list (cli : Client) (rpa : ReleasePlanAdmission) :
    GetSnapshotEnvironmentBinding cli rpa =
      match cli.ListSnapshotEnvironmentBindings (bindingListOptions rpa) with
      | .error err =>
        ⟨none, some err,
          [StoreCall.List Kind.SnapshotEnvironmentBinding (bindingListOptions rpa)]⟩
      | .ok items =>
        ⟨scanBindings rpa items, none,
          [StoreCall.List Kind.SnapshotEnvironmentBinding (bindingListOptions rpa)]⟩ := rfl

/-- C14: when the list call succeeds and no listed binding has the
Application of the admission (the empty list included), the call returns a
nil binding and a nil error; when the list call fails, it returns a nil
binding and the error of the list call. -/
theorem getBinding_none_or_list_error (cli : Client) (rpa : ReleasePlanAdmission) :
    (∀ items, cli.ListSnapshotEnvironmentBindings (bindingListOptions rpa) = .ok items →
        (∀ b ∈ items, b.Spec.Application ≠ rpa.Spec.Application) →
        (GetSnapshotEnvironmentBinding cli rpa).val = none ∧
        (GetSnapshotEnvironmentBinding cli rpa).err = none) ∧
      (∀ e, cli.ListSnapshotEnvironmentBindings (bindingListOptions rpa) = .error e →
        (GetSnapshotEnvironmentBinding cli rpa).val = none ∧
        (GetSnapshotEnvironmentBinding cli rpa).err = some e) := by
  refine ⟨?_, ?_⟩
  · intro items hlist hno
    rw [getBinding_of_list, hlist]
    exact ⟨scanBindings_nomatch rpa items hno, rfl⟩
  · intro e hlist
    rw [getBinding_of_list, hlist]
    exact ⟨rfl, rfl⟩

/-- C14 at two stores: the suite store asked for an admission of another
application answers a list without a match, and a store whose list call
fails hands its error through. -/
theorem getBinding_none_or_list_error_witness :
    ((GetSnapshotEnvironmentBinding suiteStore
          { suiteReleasePlanAdmission with
            Spec := { suiteReleasePlanAdmission.Spec with Application := "other" } }).val =
        none ∧
      (GetSnapshotEnvironmentBinding suiteStore
          { suiteReleasePlanAdmission with
            Spec := { suiteReleasePlanAdmission.Spec with Application := "other" } }).err =
        none) ∧
    ((GetSnapshotEnvironmentBinding failingListStore suiteReleasePlanAdmission).val = none ∧
      (GetSnapshotEnvironmentBinding failingListStore suiteReleasePlanAdmission).err =
        some (.Status "Timeout" "list timed out")) :=
  ⟨(getBinding_none_or_list_error suiteStore
      { suiteReleasePlanAdmission with
        Spec := { suiteReleasePlanAdmission.Spec with Application := "other" } }).1
      [suiteBinding] rfl (by decide),
    (getBinding_none_or_list_error failingListStore suiteReleasePlanAdmission).2
      (.Status "Timeout" "list timed out") rfl⟩

/-- C15: when the store answers the list call (namespace of the admission,
Environment of the admission) with bindings of that Environment among which
at least one has the Application of the admission, the call returns, with no
error, the first such binding in list order; that binding matches the
admission on both Environment and Application. -/
theorem getBinding_first_match (cli : Client) (rpa : ReleasePlanAdmission)
    (pre post : List SnapshotEnvironmentBinding) (b : SnapshotEnvironmentBinding)
    (hlist : cli.ListSnapshotEnvironmentBindings (bindingListOptions rpa) =
      .ok (pre ++ b :: post))
    (henv : ∀ x ∈ pre ++ b :: post, x.Spec.Environment = rpa.Spec.Environment)
    (hpre : ∀ x ∈ pre, x.Spec.Application ≠ rpa.Spec.Application)
    (hb : b.Spec.Application = rpa.Spec.Application) :
    (GetSnapshotEnvironmentBinding cli rpa).val = some b ∧
      (GetSnapshotEnvironmentBinding cli rpa).err = none ∧
      b.Spec.Environment = rpa.Spec.Environment ∧
      b.Spec.Application = rpa.Spec.Application := by
  rw [getBinding_of_list, hlist]
  refine ⟨scanBindings_first rpa pre post b hpre hb, rfl, henv b ?_, hb⟩
  simp

/-- C15 at a store listing three bindings of the environment: one of another
application, then two of "application"; the first of those two is the one
returned. -/
theorem getBinding_first_match_witness :
    (GetSnapshotEnvironmentBinding
        { emptyStore with
          ListSnapshotEnvironmentBindings := fun _ =>
            .ok [{ suiteBinding with Name := "b0", Spec := { suiteBinding.Spec with
                    Application := "other" } },
                 { suiteBinding with Name := "b1" }, { suiteBinding with Name := "b2" }] }
        suiteReleasePlanAdmission).val = some { suiteBinding with Name := "b1" } ∧
      (GetSnapshotEnvironmentBinding
        { emptyStore with
          ListSnapshotEnvironmentBindings := fun _ =>
            .ok [{ suiteBinding with Name := "b0", Spec := { suiteBinding.Spec with
                    Application := "other" } },
                 { suiteBinding with Name := "b1" }, { suiteBinding with Name := "b2" }] }
        suiteReleasePlanAdmission).err = none ∧
      ({ suiteBinding with Name := "b1" } : SnapshotEnvironmentBinding).Spec.Environment =
        suiteReleasePlanAdmission.Spec.Environment ∧
      ({ suiteBinding with Name := "b1" } : SnapshotEnvironmentBinding).Spec.Application =
        suiteReleasePlanAdmission.Spec.Application :=
  getBinding_first_match _ suiteReleasePlanAdmission
    [{ suiteBinding with Name := "b0", Spec := { suiteBinding.Spec with
        Application := "other" } }]
    [{ suiteBinding with Name := "b2" }] { suiteBinding with Name := "b1" } rfl
    (by decide) (by decide) (by decide)


/-! ## GetActiveReleasePlanAdmissionFromRelease and GetReleasePipelineRun: the claims -/

/-- What `GetReleasePlan` returns for each answer of the store. -/
theorem getReleasePlan_of_get (cli : Client) (release : Release) :
    GetReleasePlan cli release =
      match cli.GetReleasePlan (objectKey release.Spec.ReleasePlan release.Namespace) with
      | .ok plan =>
        ⟨plan, none,
          [StoreCall.Get Kind.ReleasePlan
            (objectKey release.Spec.ReleasePlan release.Namespace)]⟩
      | .error err =>
        ⟨{}, some err,
          [StoreCall.Get Kind.ReleasePlan
            (objectKey release.Spec.ReleasePlan release.Namespace)]⟩ := by
  simp only [GetReleasePlan, getObject, clientGet, StoreObject.get, StoreObject.kind, objectKey]
  cases h : cli.GetReleasePlan ⟨release.Namespace, release.Spec.ReleasePlan⟩ with
  | ok plan => simp [h]
  | error err => simp [h]

/-- C16: when the lookup of the ReleasePlan named by `release.Spec.ReleasePlan`
in the namespace of the release fails, the call returns nil and that error,
and its only store call is that lookup (no admission is listed); when the
lookup succeeds, the admission and the error returned are those of
`GetActiveReleasePlanAdmission` on the plan found, whose store calls follow
the lookup. -/
theorem getActiveFromRelease_delegates (key : String) (cli : Client) (release : Release) :
    (∀ e, cli.GetReleasePlan (objectKey release.Spec.ReleasePlan release.Namespace) =
          .error e →
        (GetActiveReleasePlanAdmissionFromRelease key cli release).val = none ∧
        (GetActiveReleasePlanAdmissionFromRelease key cli release).err = some e ∧
        (GetActiveReleasePlanAdmissionFromRelease key cli release).calls =
          [StoreCall.Get Kind.ReleasePlan
            (objectKey release.Spec.ReleasePlan release.Namespace)]) ∧
      (∀ plan, cli.GetReleasePlan (objectKey release.Spec.ReleasePlan release.Namespace) =
          .ok plan →
        (GetActiveReleasePlanAdmissionFromRelease key cli release).val =
          (GetActiveReleasePlanAdmission key cli plan).val ∧
        (GetActiveReleasePlanAdmissionFromRelease key cli release).err =
          (GetActiveReleasePlanAdmission key cli plan).err ∧
        (GetActiveReleasePlanAdmissionFromRelease key cli release).calls =
          StoreCall.Get Kind.ReleasePlan
              (objectKey release.Spec.ReleasePlan release.Namespace) ::
            (GetActiveReleasePlanAdmission key cli plan).calls) := by
  refine ⟨?_, ?_⟩
  · intro e hget
    unfold GetActiveReleasePlanAdmissionFromRelease
    rw [getReleasePlan_of_get, hget]
    exact ⟨rfl, rfl, rfl⟩
  · intro plan hget
    unfold GetActiveReleasePlanAdmissionFromRelease
    rw [getReleasePlan_of_get, hget]
    exact ⟨rfl, rfl, rfl⟩

/-- C16 at the suite store: for the suite release the plan is found and the
suite admission comes back after a Get and a List; for a release naming a
plan that does not exist the NotFound error of the Get comes back and no
list call is made. -/
theorem getActiveFromRelease_delegates_witness :
    ((GetActiveReleasePlanAdmissionFromRelease "auto-release" suiteStore suiteRelease).val =
        some suiteReleasePlanAdmission ∧
      (GetActiveReleasePlanAdmissionFromRelease "auto-release" suiteStore suiteRelease).err =
        none ∧
      (GetActiveReleasePlanAdmissionFromRelease "auto-release" suiteStore suiteRelease).calls =
        [StoreCall.Get Kind.ReleasePlan (objectKey "release-plan" "default"),
         StoreCall.List Kind.ReleasePlanAdmission (admissionListOptions suiteReleasePlan)]) ∧
    ((GetActiveReleasePlanAdmissionFromRelease "auto-release" suiteStore
        { suiteRelease with
          Spec := { suiteRelease.Spec with ReleasePlan := "non-existent-release-plan" } }).val =
        none ∧
      (GetActiveReleasePlanAdmissionFromRelease "auto-release" suiteStore
        { suiteRelease with
          Spec := { suiteRelease.Spec with ReleasePlan := "non-existent-release-plan" } }).err =
        some (.Status "NotFound" "not found") ∧
      (GetActiveReleasePlanAdmissionFromRelease "auto-release" suiteStore
        { suiteRelease with
          Spec := { suiteRelease.Spec with ReleasePlan := "non-existent-release-plan" } }).calls =
        [StoreCall.Get Kind.ReleasePlan (objectKey "non-existent-release-plan" "default")]) :=
  ⟨(getActiveFromRelease_delegates "auto-release" suiteStore suiteRelease).2
      suiteReleasePlan rfl,
    (getActiveFromRelease_delegates "auto-release" suiteStore
      { suiteRelease with
        Spec := { suiteRelease.Spec with ReleasePlan := "non-existent-release-plan" } }).1
      (.Status "NotFound" "not found") rfl⟩

/-- What `GetReleasePipelineRun` returns for each answer of the list call. -/
theorem getReleasePipelineRun_of_list (nameLabel namespaceLabel : String) (cli : Client)
    (release : Release) :
    GetReleasePipelineRun nameLabel namespaceLabel cli release =
      match cli.ListPipelineRuns (pipelineRunListOptions nameLabel namespaceLabel release) with
      | .ok (first :: _) =>
        ⟨some first, none,
          [StoreCall.List Kind.PipelineRun
            (pipelineRunListOptions nameLabel namespaceLabel release)]⟩
      | .ok [] =>
        ⟨none, none,
          [StoreCall.List Kind.PipelineRun
            (pipelineRunListOptions nameLabel namespaceLabel release)]⟩
      | .error err =>
        ⟨none, some err,
          [StoreCall.List Kind.PipelineRun
            (pipelineRunListOptions nameLabel namespaceLabel release)]⟩ := rfl

/-- C17: the one store call of `GetReleasePipelineRun` is a list of
PipelineRuns with limit one and the two label selectors (release name,
release namespace). When the list succeeds and is empty the call returns nil
with a nil error; when it succeeds and is not empty it returns the first
PipelineRun listed with a nil error; when it fails it returns nil with the
error of the list. So (nil, nil) is returned exactly when the list succeeded
and was empty, never when the lookup failed. -/
theorem getReleasePipelineRun_outcomes (nameLabel namespaceLabel : String) (cli : Client)
    (release : Release) :
    (GetReleasePipelineRun nameLabel namespaceLabel cli release).calls =
        [StoreCall.List Kind.PipelineRun
          { Limit := 1,
            MatchingLabels :=
              [(nameLabel, release.Name), (namespaceLabel, release.Namespace)] }] ∧
      (cli.ListPipelineRuns (pipelineRunListOptions nameLabel namespaceLabel release) =
          .ok [] →
        (GetReleasePipelineRun nameLabel namespaceLabel cli release).val = none ∧
        (GetReleasePipelineRun nameLabel namespaceLabel cli release).err = none) ∧
      (∀ first rest,
        cli.ListPipelineRuns (pipelineRunListOptions nameLabel namespaceLabel release) =
          .ok (first :: rest) →
        (GetReleasePipelineRun nameLabel namespaceLabel cli release).val = some first ∧
        (GetReleasePipelineRun nameLabel namespaceLabel cli release).err = none) ∧
      (∀ e,
        cli.ListPipelineRuns (pipelineRunListOptions nameLabel namespaceLabel release) =
          .error e →
        (GetReleasePipelineRun nameLabel namespaceLabel cli release).val = none ∧
        (GetReleasePipelineRun nameLabel namespaceLabel cli release).err = some e) ∧
      (((GetReleasePipelineRun nameLabel namespaceLabel cli release).val = none ∧
          (GetReleasePipelineRun nameLabel namespaceLabel cli release).err = none) ↔
        cli.ListPipelineRuns (pipelineRunListOptions nameLabel namespaceLabel release) =
          .ok []) := by
  rw [getReleasePipelineRun_of_list]
  cases hlist : cli.ListPipelineRuns (pipelineRunListOptions nameLabel namespaceLabel release) with
  | error e => simp [pipelineRunListOptions]
  | ok items =>
    cases items with
    | nil => simp [pipelineRunListOptions]
    | cons first rest => simp [pipelineRunListOptions]

/-- C17 at three stores: the suite store lists the pipeline run of the suite
release, the empty store lists nothing, and a store whose list call fails
hands its error through. -/
theorem getReleasePipelineRun_outcomes_witness :
    ((GetReleasePipelineRun "release-name" "release-namespace" suiteStore suiteRelease).val =
        some suitePipelineRun ∧
      (GetReleasePipelineRun "release-name" "release-namespace" suiteStore suiteRelease).err =
        none) ∧
    ((GetReleasePipelineRun "release-name" "release-namespace" emptyStore suiteRelease).val =
        none ∧
      (GetReleasePipelineRun "release-name" "release-namespace" emptyStore suiteRelease).err =
        none) ∧
    ((GetReleasePipelineRun "release-name" "release-namespace" failingListStore
        suiteRelease).val = none ∧
      (GetReleasePipelineRun "release-name" "release-namespace" failingListStore
        suiteRelease).err = some (.Status "Timeout" "list timed out")) :=
  ⟨(getReleasePipelineRun_outcomes "release-name" "release-namespace" suiteStore
      suiteRelease).2.2.1 suitePipelineRun [] rfl,
    (getReleasePipelineRun_outcomes "release-name" "release-namespace" emptyStore
      suiteRelease).2.1 rfl,
    (getReleasePipelineRun_outcomes "release-name" "release-namespace" failingListStore
      suiteRelease).2.2.2.1 (.Status "Timeout" "list timed out") rfl⟩


/-! ## The label validator: the claim -/

theorem invalidLabelMessage_contains (key : String) :
    Contains (invalidLabelMessage key)
      ("\x27" ++ key ++ "\x27 label can only be set to true or false") :=
  ⟨"", "", by simp [invalidLabelMessage]⟩

/-- C18: on create and on update the validator accepts a write exactly when
the auto-release label is absent or its value is "true" or "false"; every
other value is rejected with an error whose message contains
"'<label key>' label can only be set to true or false". -/
theorem validateWrite_accepts_iff (key : String) (operation : Operation)
    (labels : List (String × String))
    (hop : operation = .create ∨ operation = .update) :
    (validateWrite key operation labels = none ↔
        labels.lookup key = none ∨ labels.lookup key = some "true" ∨
          labels.lookup key = some "false") ∧
      (∀ v, labels.lookup key = some v → v ≠ "true" → v ≠ "false" →
        ∃ e, validateWrite key operation labels = some e ∧
          Contains e.Error ("\x27" ++ key ++ "\x27 label can only be set to true or false")) := by
  have hval : validateWrite key operation labels =
      match labels.lookup key with
      | none => none
      | some v =>
        if v = "true" ∨ v = "false" then none
        else some (.Errorf (invalidLabelMessage key)) := by
    rcases hop with h | h <;> subst h <;>
      cases hl : labels.lookup key <;> simp [validateWrite, mapIndex, hl]
  rw [hval]
  cases hl : labels.lookup key with
  | none => simp
  | some v =>
    by_cases hv : v = "true" ∨ v = "false"
    · refine ⟨by simp [hv], ?_⟩
      intro w hw hwt hwf
      have hwv : v = w := Option.some.inj hw
      subst hwv
      rcases hv with h | h
      · exact absurd h hwt
      · exact absurd h hwf
    · refine ⟨by simp [hv], ?_⟩
      intro w _ _ _
      exact ⟨.Errorf (invalidLabelMessage key), by simp [hv], invalidLabelMessage_contains key⟩

/-- C18 at the values of the specification: on create "foo", on update "TRUE"
and the empty string are refused with the message naming the label key;
absent, "true" and "false" are accepted. -/
theorem validateWrite_accepts_iff_witness :
    (∃ e, validateWrite "auto-release" .create [("auto-release", "foo")] = some e ∧
        Contains e.Error "\x27auto-release\x27 label can only be set to true or false") ∧
      (∃ e, validateWrite "auto-release" .update [("auto-release", "TRUE")] = some e ∧
        Contains e.Error "\x27auto-release\x27 label can only be set to true or false") ∧
      (∃ e, validateWrite "auto-release" .update [("auto-release", "")] = some e ∧
        Contains e.Error "\x27auto-release\x27 label can only be set to true or false") ∧
      validateWrite "auto-release" .create [] = none ∧
      validateWrite "auto-release" .create [("auto-release", "true")] = none ∧
      validateWrite "auto-release" .update [("auto-release", "false")] = none :=
  ⟨(validateWrite_accepts_iff "auto-release" .create [("auto-release", "foo")]
      (Or.inl rfl)).2 "foo" (by decide) (by decide) (by decide),
    (validateWrite_accepts_iff "auto-release" .update [("auto-release", "TRUE")]
      (Or.inr rfl)).2 "TRUE" (by decide) (by decide) (by decide),
    (validateWrite_accepts_iff "auto-release" .update [("auto-release", "")]
      (Or.inr rfl)).2 "" (by decide) (by decide) (by decide),
    (validateWrite_accepts_iff "auto-release" .create [] (Or.inl rfl)).1.mpr
      (Or.inl (by decide)),
    (validateWrite_accepts_iff "auto-release" .create [("auto-release", "true")]
      (Or.inl rfl)).1.mpr (Or.inr (Or.inl (by decide))),
    (validateWrite_accepts_iff "auto-release" .update [("auto-release", "false")]
      (Or.inr rfl)).1.mpr (Or.inr (Or.inr (by decide)))⟩

/-! ## GetActiveReleasePlanAdmission: filtering and list order -/

/-- C19: candidates of another Application are discarded before anything
else. For a plan and a list `items`, the call on a store that lists `items`
returns the same admission and the same error as the call on a store that
lists only the elements of `items` with the Application of the plan, in
their original order. -/
theorem getActive_filter_invariant (key : String) (cli cli' : Client) (plan : ReleasePlan)
    (items : List ReleasePlanAdmission)
    (hlist : cli.ListReleasePlanAdmissions (admissionListOptions plan) = .ok items)
    (hlist' : cli'.ListReleasePlanAdmissions (admissionListOptions plan) =
      .ok (items.filter (fun a => a.Spec.Application == plan.Spec.Application))) :
    (GetActiveReleasePlanAdmission key cli plan).val =
        (GetActiveReleasePlanAdmission key cli' plan).val ∧
      (GetActiveReleasePlanAdmission key cli plan).err =
        (GetActiveReleasePlanAdmission key cli' plan).err := by
  have hscan : scanReleasePlanAdmissions key plan items none =
      scanReleasePlanAdmissions key plan
        (items.filter (fun a => a.Spec.Application == plan.Spec.Application)) none :=
    scan_filter key plan items none
  rw [getActive_of_list key cli plan _ hlist, getActive_of_list key cli' plan _ hlist', hscan]
  cases scanReleasePlanAdmissions key plan
      (items.filter (fun a => a.Spec.Application == plan.Spec.Application)) none with
  | error e => exact ⟨rfl, rfl⟩
  | ok active => cases active <;> exact ⟨rfl, rfl⟩

/-- C19 at a list of four admissions, two of them of other applications:
with or without those two the call fails with the same "multiple" error. -/
theorem getActive_filter_invariant_witness :
    (GetActiveReleasePlanAdmission "auto-release"
        (storeWithAdmissions [mkAdmission "x" "other" [("auto-release", "false")],
          mkAdmission "a" "app1" [], mkAdmission "y" "app2" [],
          mkAdmission "b" "app1" [("auto-release", "false")]]) planApp1).val =
      (GetActiveReleasePlanAdmission "auto-release"
        (storeWithAdmissions [mkAdmission "a" "app1" [],
          mkAdmission "b" "app1" [("auto-release", "false")]]) planApp1).val ∧
    (GetActiveReleasePlanAdmission "auto-release"
        (storeWithAdmissions [mkAdmission "x" "other" [("auto-release", "false")],
          mkAdmission "a" "app1" [], mkAdmission "y" "app2" [],
          mkAdmission "b" "app1" [("auto-release", "false")]]) planApp1).err =
      (GetActiveReleasePlanAdmission "auto-release"
        (storeWithAdmissions [mkAdmission "a" "app1" [],
          mkAdmission "b" "app1" [("auto-release", "false")]]) planApp1).err :=
  getActive_filter_invariant "auto-release" _ _ planApp1
    [mkAdmission "x" "other" [("auto-release", "false")], mkAdmission "a" "app1" [],
      mkAdmission "y" "app2" [], mkAdmission "b" "app1" [("auto-release", "false")]]
    rfl rfl

/-- C20: the kind of failure depends on list order. Let `a` be an admission
whose label is not "false". For every list whose first two elements with the
Application of the plan are `a` and then `b`, the call fails with the
"multiple ReleasePlanAdmissions found" error, whatever the label of `b`; and
when the label of `b` is "false", for every list whose first two such
elements are `b` and then `a`, the call fails with the "auto-release label
set to false" error naming `b`. -/
theorem getActive_failure_depends_on_order (key : String) (plan : ReleasePlan)
    (a b : ReleasePlanAdmission) (ha : a.Labels.lookup key ≠ some "false") :
    (∀ (cli : Client) (items rest : List ReleasePlanAdmission),
        cli.ListReleasePlanAdmissions (admissionListOptions plan) = .ok items →
        items.filter (fun x => x.Spec.Application == plan.Spec.Application) = a :: b :: rest →
        (GetActiveReleasePlanAdmission key cli plan).val = none ∧
        (GetActiveReleasePlanAdmission key cli plan).err =
          some (.Errorf (multipleMessage plan))) ∧
      (b.Labels.lookup key = some "false" →
        ∀ (cli : Client) (items rest : List ReleasePlanAdmission),
          cli.ListReleasePlanAdmissions (admissionListOptions plan) = .ok items →
          items.filter (fun x => x.Spec.Application == plan.Spec.Application) = b :: a :: rest →
          (GetActiveReleasePlanAdmission key cli plan).val = none ∧
          (GetActiveReleasePlanAdmission key cli plan).err =
            some (.Errorf (disabledMessage b))) := by
  have hmatch : ∀ (items tail : List ReleasePlanAdmission) (x : ReleasePlanAdmission),
      items.filter (fun y => y.Spec.Application == plan.Spec.Application) = tail →
      x ∈ tail → x.Spec.Application = plan.Spec.Application := by
    intro items tail x hf hx
    rw [← hf] at hx
    simpa using (List.mem_filter.mp hx).2
  refine ⟨?_, ?_⟩
  · intro cli items rest hlist hf
    have hA := hmatch items _ a hf (by simp)
    have hB := hmatch items _ b hf (by simp)
    have hscan : scanReleasePlanAdmissions key plan items none =
        .error (.Errorf (multipleMessage plan)) := by
      rw [scan_filter key plan items none]
      show scanReleasePlanAdmissions key plan
        (items.filter (fun x => x.Spec.Application == plan.Spec.Application)) none = _
      rw [hf, scan_first_enabled key plan a _ hA ha, scan_second_match key plan b a rest hB]
    rw [getActive_of_list key cli plan _ hlist, hscan]
    exact ⟨rfl, rfl⟩
  · intro hb cli items rest hlist hf
    have hB := hmatch items _ b hf (by simp)
    have hscan : scanReleasePlanAdmissions key plan items none =
        .error (.Errorf (disabledMessage b)) := by
      rw [scan_filter key plan items none]
      show scanReleasePlanAdmissions key plan
        (items.filter (fun x => x.Spec.Application == plan.Spec.Application)) none = _
      rw [hf, scan_first_disabled key plan b _ hB hb]
    rw [getActive_of_list key cli plan _ hlist, hscan]
    exact ⟨rfl, rfl⟩

/-- C20 at the two admissions of the test suite, one labelled "true" and its
copy labelled "false": listed eligible first the call reports "multiple
ReleasePlanAdmissions found", listed disabled first it reports the
"auto-release label set to false" error. -/
theorem getActive_failure_depends_on_order_witness :
    (GetActiveReleasePlanAdmission "auto-release"
        (storeWithAdmissions [mkAdmission "rpa" "app1" [("auto-release", "true")],
          mkAdmission "disabled-rpa" "app1" [("auto-release", "false")]]) planApp1).err =
      some (.Errorf (multipleMessage planApp1)) ∧
    (GetActiveReleasePlanAdmission "auto-release"
        (storeWithAdmissions [mkAdmission "disabled-rpa" "app1" [("auto-release", "false")],
          mkAdmission "rpa" "app1" [("auto-release", "true")]]) planApp1).err =
      some (.Errorf
        (disabledMessage (mkAdmission "disabled-rpa" "app1" [("auto-release", "false")]))) :=
  have h := getActive_failure_depends_on_order "auto-release" planApp1
    (mkAdmission "rpa" "app1" [("auto-release", "true")])
    (mkAdmission "disabled-rpa" "app1" [("auto-release", "false")]) (by decide)
  ⟨(h.1 _ [mkAdmission "rpa" "app1" [("auto-release", "true")],
      mkAdmission "disabled-rpa" "app1" [("auto-release", "false")]] [] rfl (by decide)).2,
    (h.2 (by decide) _ [mkAdmission "disabled-rpa" "app1" [("auto-release", "false")],
      mkAdmission "rpa" "app1" [("auto-release", "true")]] [] rfl (by decide)).2⟩

end Loader
